import Mathlib

/-!
Shallow embedding of the FuelTrack ledger and reconciliation engine
(src/src/components/dashboard.tsx and src/src/components/credit-management.tsx).

Money, prices, quantities and balances are modelled as exact rationals;
transaction and customer ids (uuids in the source) are modelled as naturals
drawn from a monotone counter carried in the state, so that freshly generated
ids never collide with existing ones.  JavaScript truthiness tests on optional
fields are modelled explicitly: an optional numeric field is truthy when it is
present and nonzero, an optional string field when it is present and nonempty.
-/

namespace FuelTrack

inductive FuelType where
  | petrol
  | diesel
deriving DecidableEq, Repr

inductive TxType where
  | sale
  | expense
  | stock
  | repayment
deriving DecidableEq, Repr

structure Transaction where
  id : Nat
  type : TxType
  fuelType : Option FuelType
  quantity : Option ℚ
  amount : ℚ
  isCredit : Bool
  customerId : Option Nat
  customerName : Option String
  description : Option String
  timestamp : Nat
deriving DecidableEq, Repr

structure Customer where
  id : Nat
  name : String
  balance : ℚ
deriving DecidableEq, Repr

/-- The fuelStock / fuelPrices objects of the dashboard state. -/
structure FuelMap where
  petrol : ℚ
  diesel : ℚ
deriving DecidableEq, Repr

def FuelMap.get (m : FuelMap) : FuelType → ℚ
  | FuelType.petrol => m.petrol
  | FuelType.diesel => m.diesel

def FuelMap.set (m : FuelMap) : FuelType → ℚ → FuelMap
  | FuelType.petrol, v => { m with petrol := v }
  | FuelType.diesel, v => { m with diesel := v }

/-- The four persisted stores of the dashboard, plus the id counter modelling
uuid generation and the clock value used for timestamps. -/
structure AppState where
  transactions : List Transaction
  customers : List Customer
  fuelStock : FuelMap
  fuelPrices : FuelMap
  nextId : Nat
  now : Nat
deriving DecidableEq, Repr

/-- A transaction before the id and timestamp are assigned,
mirroring the argument of addTransaction in dashboard.tsx. -/
structure TxDraft where
  type : TxType
  fuelType : Option FuelType
  quantity : Option ℚ
  amount : ℚ
  isCredit : Bool
  customerId : Option Nat
  customerName : Option String
  description : Option String
deriving DecidableEq, Repr

/-- addTransaction: assign a fresh id and the current timestamp and prepend. -/
def addTransaction (s : AppState) (d : TxDraft) : AppState :=
  { s with
    transactions :=
      { id := s.nextId, type := d.type, fuelType := d.fuelType,
        quantity := d.quantity, amount := d.amount, isCredit := d.isCredit,
        customerId := d.customerId, customerName := d.customerName,
        description := d.description, timestamp := s.now } :: s.transactions,
    nextId := s.nextId + 1 }

/-- String.toLowerCase as used for case-insensitive customer matching. -/
def strLower (s : String) : String := String.mk (s.data.map Char.toLower)

/-- JavaScript truthiness of an optional string: present and nonempty. -/
def strTruthy : Option String → Bool
  | none => false
  | some s => !s.isEmpty

/-- The fields of the sale form after zod coercion, as received by onSaleSubmit. -/
structure SaleValues where
  fuelType : FuelType
  quantity : ℚ
  isCredit : Bool
  customerName : Option String
deriving DecidableEq, Repr

inductive SaleError where
  | insufficientStock
deriving DecidableEq, Repr

inductive RepayError where
  | repaymentExceedsBalance
deriving DecidableEq, Repr

def fuelName : FuelType → String
  | FuelType.petrol => "petrol"
  | FuelType.diesel => "diesel"

/-- onSaleSubmit from dashboard.tsx: guard against insufficient stock,
decrement stock, merge-or-create the credit customer by case-insensitive
name, and append the sale transaction. -/
def onSaleSubmit (s : AppState) (v : SaleValues) : Except SaleError AppState :=
  let price := s.fuelPrices.get v.fuelType
  let amount := v.quantity * price
  if s.fuelStock.get v.fuelType < v.quantity then
    Except.error SaleError.insufficientStock
  else
    let s1 : AppState :=
      { s with fuelStock := s.fuelStock.set v.fuelType (s.fuelStock.get v.fuelType - v.quantity) }
    let credit : Option Nat × AppState :=
      if v.isCredit && strTruthy v.customerName then
        match v.customerName with
        | some n =>
          match s1.customers.find? (fun c => strLower c.name == strLower n) with
          | some c =>
            let c2 : Customer := { c with balance := c.balance + amount }
            (some c.id,
             { s1 with customers := s1.customers.map (fun x => if x.id == c.id then c2 else x) })
          | none =>
            let newC : Customer := { id := s1.nextId, name := n, balance := amount }
            (some newC.id,
             { s1 with customers := s1.customers ++ [newC], nextId := s1.nextId + 1 })
        | none => (none, s1)
      else (none, s1)
    Except.ok (addTransaction credit.2
      { type := TxType.sale, fuelType := some v.fuelType, quantity := some v.quantity,
        amount := amount, isCredit := v.isCredit, customerId := credit.1,
        customerName := v.customerName, description := none })

/-- onExpenseSubmit from dashboard.tsx. -/
def onExpenseSubmit (s : AppState) (description : String) (amount : ℚ) : AppState :=
  addTransaction s
    { type := TxType.expense, fuelType := none, quantity := none, amount := amount,
      isCredit := false, customerId := none, customerName := none,
      description := some description }

/-- addStock from dashboard.tsx. -/
def addStock (s : AppState) (fuelType : FuelType) (quantity : ℚ) : AppState :=
  let s1 : AppState :=
    { s with fuelStock := s.fuelStock.set fuelType (s.fuelStock.get fuelType + quantity) }
  addTransaction s1
    { type := TxType.stock, fuelType := some fuelType, quantity := some quantity,
      amount := 0, isCredit := false, customerId := none, customerName := none,
      description := some ("Added " ++ toString quantity ++ "L of " ++ fuelName fuelType) }

/-- updateStock from dashboard.tsx: set absolute levels and log one signed
delta transaction per fuel type whose level changed. -/
def updateStock (s : AppState) (newPetrol newDiesel : ℚ) : AppState :=
  let oldStock := s.fuelStock
  let s1 : AppState := { s with fuelStock := { petrol := newPetrol, diesel := newDiesel } }
  let s2 : AppState :=
    if newPetrol ≠ oldStock.petrol then
      addTransaction s1
        { type := TxType.stock, fuelType := some FuelType.petrol,
          quantity := some (newPetrol - oldStock.petrol), amount := 0, isCredit := false,
          customerId := none, customerName := none,
          description := some ("Stock adjusted to " ++ toString newPetrol ++ "L") }
    else s1
  if newDiesel ≠ oldStock.diesel then
    addTransaction s2
      { type := TxType.stock, fuelType := some FuelType.diesel,
        quantity := some (newDiesel - oldStock.diesel), amount := 0, isCredit := false,
        customerId := none, customerName := none,
        description := some ("Stock adjusted to " ++ toString newDiesel ++ "L") }
  else s2

/-- updatePrices from dashboard.tsx. -/
def updatePrices (s : AppState) (petrol diesel : ℚ) : AppState :=
  { s with fuelPrices := { petrol := petrol, diesel := diesel } }

/-- recordRepayment from dashboard.tsx: silently no-ops when the customer id
is unknown, otherwise decrements the balance unconditionally and appends a
repayment transaction. -/
def recordRepayment (s : AppState) (customerId : Nat) (amount : ℚ) : AppState :=
  match s.customers.find? (fun c => c.id == customerId) with
  | none => s
  | some c =>
    let c2 : Customer := { c with balance := c.balance - amount }
    let s1 : AppState :=
      { s with customers := s.customers.map (fun x => if x.id == customerId then c2 else x) }
    addTransaction s1
      { type := TxType.repayment, fuelType := none, quantity := none, amount := amount,
        isCredit := false, customerId := some customerId, customerName := some c.name,
        description := none }

/-- onRepaymentSubmit from credit-management.tsx: the presentation-layer
guard that rejects a repayment exceeding the outstanding balance before
recordRepayment is ever invoked. -/
def onRepaymentSubmit (s : AppState) (repaymentCustomer : Customer) (amount : ℚ) :
    Except RepayError AppState :=
  if repaymentCustomer.balance < amount then
    Except.error RepayError.repaymentExceedsBalance
  else
    Except.ok (recordRepayment s repaymentCustomer.id amount)

/-- updateCustomerName from dashboard.tsx. -/
def updateCustomerName (s : AppState) (customerId : Nat) (newName : String) : AppState :=
  { s with
    customers := s.customers.map (fun c =>
      if c.id == customerId then { c with name := newName } else c),
    transactions := s.transactions.map (fun t =>
      if t.customerId == some customerId then { t with customerName := some newName } else t) }

/-- deleteCustomer from dashboard.tsx: remove the customer record and strip
the customer link from referencing transactions, keeping the transactions. -/
def deleteCustomer (s : AppState) (customerId : Nat) : AppState :=
  { s with
    customers := s.customers.filter (fun c => !(c.id == customerId)),
    transactions := s.transactions.map (fun t =>
      if t.customerId == some customerId then
        { t with customerId := none, customerName := none }
      else t) }

/-- The per-type reversal switch of deleteTransaction in dashboard.tsx.
The source guards with `transaction.fuelType && transaction.quantity`,
so a quantity of zero (falsy in JavaScript) skips the stock reversal, and
with `transaction.isCredit && transaction.customerId` for the credit part. -/
def reverseTransaction (s : AppState) (t : Transaction) : AppState :=
  match t.type with
  | TxType.sale =>
    let s1 : AppState :=
      match t.fuelType, t.quantity with
      | some f, some q =>
        if q = 0 then s
        else { s with fuelStock := s.fuelStock.set f (s.fuelStock.get f + q) }
      | _, _ => s
    if t.isCredit then
      match t.customerId with
      | some cid =>
        { s1 with customers := s1.customers.map (fun c =>
            if c.id == cid then { c with balance := c.balance - t.amount } else c) }
      | none => s1
    else s1
  | TxType.repayment =>
    match t.customerId with
    | some cid =>
      { s with customers := s.customers.map (fun c =>
          if c.id == cid then { c with balance := c.balance + t.amount } else c) }
    | none => s
  | TxType.stock =>
    match t.fuelType, t.quantity with
    | some f, some q =>
      if q = 0 then s
      else { s with fuelStock := s.fuelStock.set f (s.fuelStock.get f - q) }
    | _, _ => s
  | TxType.expense => s

/-- deleteTransaction from dashboard.tsx: no-op when the id is unknown,
otherwise reverse the recorded side effects and drop the log entry. -/
def deleteTransaction (s : AppState) (transactionId : Nat) : AppState :=
  match s.transactions.find? (fun t => t.id == transactionId) with
  | none => s
  | some t =>
    let s1 := reverseTransaction s t
    { s1 with transactions := s1.transactions.filter (fun x => !(x.id == transactionId)) }

/-- updateTransaction as invoked by the expense-edit dialog of
RecentTransactions: merge a new description and amount into the record. -/
def updateTransaction (s : AppState) (transactionId : Nat)
    (newDescription : String) (newAmount : ℚ) : AppState :=
  { s with transactions := s.transactions.map (fun t =>
      if t.id == transactionId then
        { t with description := some newDescription, amount := newAmount }
      else t) }

/-- The derived daily figures returned by the aggregation useMemo. -/
structure Aggregates where
  totalSales : ℚ
  totalExpenses : ℚ
  creditDue : ℚ
  netRevenue : ℚ
deriving DecidableEq, Repr

/-- The aggregation useMemo of dashboard.tsx: a pure function of the current
transactions, customers and the start of the current day. -/
def computeAggregates (transactions : List Transaction) (customers : List Customer)
    (todayStart : Nat) : Aggregates :=
  let todaysTransactions := transactions.filter (fun t => todayStart ≤ t.timestamp)
  let totalSales :=
    (todaysTransactions.filter (fun t => t.type == TxType.sale)).foldl
      (fun sum t => sum + t.amount) 0
  let todaysCreditSales :=
    (todaysTransactions.filter (fun t => t.type == TxType.sale && t.isCredit)).foldl
      (fun sum t => sum + t.amount) 0
  let totalExpenses :=
    (todaysTransactions.filter (fun t => t.type == TxType.expense)).foldl
      (fun sum t => sum + t.amount) 0
  let creditDue := customers.foldl (fun sum c => sum + c.balance) 0
  let netRevenue := totalSales - todaysCreditSales - totalExpenses
  { totalSales := totalSales, totalExpenses := totalExpenses,
    creditDue := creditDue, netRevenue := netRevenue }

/-- The balance of the customer carrying a given id, when one exists. -/
def balanceOf (s : AppState) (customerId : Nat) : Option ℚ :=
  (s.customers.find? (fun c => c.id == customerId)).map Customer.balance

/-- Amount a single transaction contributes to the credit-sale total of a
given customer id. -/
def creditContribution (cid : Nat) (t : Transaction) : ℚ :=
  if t.type = TxType.sale ∧ t.isCredit = true ∧ t.customerId = some cid then t.amount else 0

/-- Amount a single transaction contributes to the repayment total of a
given customer id. -/
def repayContribution (cid : Nat) (t : Transaction) : ℚ :=
  if t.type = TxType.repayment ∧ t.customerId = some cid then t.amount else 0

/-- Sum of the amounts of the credit-sale transactions in the ledger that
carry the given customer id. -/
def creditSaleTotal (ts : List Transaction) (cid : Nat) : ℚ :=
  (ts.map (creditContribution cid)).sum

/-- Sum of the amounts of the repayment transactions in the ledger that
carry the given customer id. -/
def repaymentTotal (ts : List Transaction) (cid : Nat) : ℚ :=
  (ts.map (repayContribution cid)).sum

/-- Signed stock delta a single ledger entry records for a fuel type:
stock entries contribute their quantity, sales contribute its negation. -/
def txStockDelta (f : FuelType) (t : Transaction) : ℚ :=
  match t.type, t.fuelType, t.quantity with
  | TxType.stock, some g, some q => if g = f then q else 0
  | TxType.sale, some g, some q => if g = f then -q else 0
  | _, _, _ => 0

/-- Sum of the signed stock deltas of the entries currently in the log. -/
def logStockDelta (f : FuelType) (ts : List Transaction) : ℚ :=
  (ts.map (txStockDelta f)).sum

/-- The operations quantified over in the stock-conservation property. -/
inductive StockOp where
  | sale (v : SaleValues)
  | add (fuelType : FuelType) (quantity : ℚ)
  | setAbsolute (newPetrol newDiesel : ℚ)
  | del (transactionId : Nat)
deriving DecidableEq, Repr

/-- Run one stock-affecting operation; a rejected sale leaves the state as is. -/
def applyStockOp (s : AppState) : StockOp → AppState
  | StockOp.sale v =>
    match onSaleSubmit s v with
    | Except.ok s2 => s2
    | Except.error _ => s
  | StockOp.add f q => addStock s f q
  | StockOp.setAbsolute p d => updateStock s p d
  | StockOp.del i => deleteTransaction s i

def applyStockOps (s : AppState) (ops : List StockOp) : AppState :=
  ops.foldl applyStockOp s

/-- Ids already handed out are below the counter, and log ids are distinct;
this is how the uuid generation of the source is reflected in the model. -/
def TxIdsOk (s : AppState) : Prop :=
  (∀ t ∈ s.transactions, t.id < s.nextId) ∧ (s.transactions.map Transaction.id).Nodup

/-- Well-formedness of all ids in a state: customer ids, transaction ids and
the customer references held by transactions are below the counter, and
transaction ids are pairwise distinct. -/
def IdsFresh (s : AppState) : Prop :=
  (∀ c ∈ s.customers, c.id < s.nextId) ∧
  (∀ t ∈ s.transactions, t.id < s.nextId) ∧
  (∀ t ∈ s.transactions, ∀ cid, t.customerId = some cid → cid < s.nextId) ∧
  (s.transactions.map Transaction.id).Nodup

/-- The credit-balance conservation invariant. -/
def BalanceInv (s : AppState) : Prop :=
  ∀ c ∈ s.customers,
    c.balance = creditSaleTotal s.transactions c.id - repaymentTotal s.transactions c.id

def StateOk (s : AppState) : Prop := IdsFresh s ∧ BalanceInv s

/-- One user-visible mutation of the reconciliation engine, as dispatched by
the dashboard component.  The expense edit is constrained to expense
transactions because RecentTransactions offers the edit action only there. -/
inductive Step : AppState → AppState → Prop where
  | sale (s : AppState) (v : SaleValues) (s2 : AppState)
      (h : onSaleSubmit s v = Except.ok s2) : Step s s2
  | expense (s : AppState) (d : String) (a : ℚ) : Step s (onExpenseSubmit s d a)
  | add (s : AppState) (f : FuelType) (q : ℚ) : Step s (addStock s f q)
  | setAbsolute (s : AppState) (p d : ℚ) : Step s (updateStock s p d)
  | prices (s : AppState) (p d : ℚ) : Step s (updatePrices s p d)
  | repay (s : AppState) (cid : Nat) (a : ℚ) : Step s (recordRepayment s cid a)
  | rename (s : AppState) (cid : Nat) (n : String) : Step s (updateCustomerName s cid n)
  | delCustomer (s : AppState) (cid : Nat) : Step s (deleteCustomer s cid)
  | delTx (s : AppState) (i : Nat) : Step s (deleteTransaction s i)
  | editExpense (s : AppState) (i : Nat) (d : String) (a : ℚ)
      (he : ∀ t ∈ s.transactions, t.id = i → t.type = TxType.expense) :
      Step s (updateTransaction s i d a)

/-- A fresh application state: empty ledgers, given stock and price maps. -/
def initState (stock prices : FuelMap) (now : Nat) : AppState :=
  { transactions := [], customers := [], fuelStock := stock, fuelPrices := prices,
    nextId := 0, now := now }

/-- States reachable from an initial state through engine operations. -/
def Reachable (s s2 : AppState) : Prop := Relation.ReflTransGen Step s s2

/-- A state agrees with another on fuel stock and on the balance recorded
for every customer id that exists in the latter. -/
def RestoresCoreState (s s2 : AppState) : Prop :=
  s2.fuelStock = s.fuelStock ∧ ∀ c ∈ s.customers, balanceOf s2 c.id = balanceOf s c.id

/-- The state right after the stock decrement inside onSaleSubmit. -/
def saleStockUpdated (s : AppState) (v : SaleValues) : AppState :=
  { s with fuelStock := s.fuelStock.set v.fuelType (s.fuelStock.get v.fuelType - v.quantity) }

/-- The draft of the ledger entry appended by onSaleSubmit. -/
def saleDraft (v : SaleValues) (amount : ℚ) (customerId : Option Nat) : TxDraft :=
  { type := TxType.sale, fuelType := some v.fuelType, quantity := some v.quantity,
    amount := amount, isCredit := v.isCredit, customerId := customerId,
    customerName := v.customerName, description := none }

/-- The ledger entry addTransaction builds from a draft in a given state. -/
def draftTx (smid : AppState) (d : TxDraft) : Transaction :=
  { id := smid.nextId, type := d.type, fuelType := d.fuelType, quantity := d.quantity,
    amount := d.amount, isCredit := d.isCredit, customerId := d.customerId,
    customerName := d.customerName, description := d.description, timestamp := smid.now }

/-- Signed stock delta a draft would record, mirroring txStockDelta. -/
def txDraftStockDelta (f : FuelType) (d : TxDraft) : ℚ :=
  match d.type, d.fuelType, d.quantity with
  | TxType.stock, some g, some q => if g = f then q else 0
  | TxType.sale, some g, some q => if g = f then -q else 0
  | _, _, _ => 0

/-- A concrete state whose ledger already carries one stock entry: used to
exercise the stock-conservation property on a nonempty initial log. -/
def exLogTx : Transaction :=
  { id := 0, type := TxType.stock, fuelType := some FuelType.petrol,
    quantity := some 5, amount := 0, isCredit := false, customerId := none,
    customerName := none, description := none, timestamp := 0 }

def exLogState : AppState :=
  { transactions := [exLogTx],
    customers := [], fuelStock := { petrol := 100, diesel := 0 },
    fuelPrices := { petrol := 1, diesel := 1 }, nextId := 1, now := 0 }

/-- A concrete state used to exercise the theorems: one customer with an
outstanding balance of 100, some stock, the default prices. -/
def exAliState : AppState :=
  { transactions := [], customers := [{ id := 0, name := "Ali", balance := 100 }],
    fuelStock := { petrol := 50, diesel := 40 },
    fuelPrices := { petrol := 205/2, diesel := 479/5 }, nextId := 1, now := 5 }

/-- A fresh state used to exercise reachability: plenty of stock, unit prices 10. -/
def exInitC4 : AppState := initState { petrol := 100, diesel := 100 } { petrol := 10, diesel := 10 } 7

/-- A credit sale of 5L of petrol to a new customer named Ali. -/
def exSaleV : SaleValues :=
  { fuelType := FuelType.petrol, quantity := 5, isCredit := true, customerName := some "Ali" }

/-- The state exInitC4 reaches after the credit sale exSaleV. -/
def exC4State : AppState :=
  addTransaction
    { saleStockUpdated exInitC4 exSaleV with
        customers := exInitC4.customers ++
          [{ id := exInitC4.nextId, name := "Ali",
             balance := exSaleV.quantity * exInitC4.fuelPrices.get exSaleV.fuelType }],
        nextId := exInitC4.nextId + 1 }
    (saleDraft exSaleV (exSaleV.quantity * exInitC4.fuelPrices.get exSaleV.fuelType)
      (some exInitC4.nextId))

/-- A credit sale of 2L of petrol under the lowercase spelling of Ali's name. -/
def exSaleV6 : SaleValues :=
  { fuelType := FuelType.petrol, quantity := 2, isCredit := true, customerName := some "ali" }

/-- The state exAliState reaches after the credit sale exSaleV6, which matches
the existing customer Ali case-insensitively. -/
def exC6State : AppState :=
  addTransaction
    { saleStockUpdated exAliState exSaleV6 with customers := exAliState.customers.map (fun x =>
        if x.id == (0 : Nat) then
          { id := 0, name := "Ali",
            balance := (100 : ℚ) + exSaleV6.quantity * exAliState.fuelPrices.get exSaleV6.fuelType }
        else x) }
    (saleDraft exSaleV6 (exSaleV6.quantity * exAliState.fuelPrices.get exSaleV6.fuelType) (some 0))

theorem FuelMap.get_set_self (m : FuelMap) (f : FuelType) (v : ℚ) :
    (m.set f v).get f = v := by
  cases f <;> rfl

theorem FuelMap.get_set_ne (m : FuelMap) (f g : FuelType) (v : ℚ) (h : f ≠ g) :
    (m.set f v).get g = m.get g := by
  cases f <;> cases g <;> first | rfl | exact absurd rfl h

theorem FuelMap.set_set (m : FuelMap) (f : FuelType) (v w : ℚ) :
    (m.set f v).set f w = m.set f w := by
  cases f <;> rfl

theorem FuelMap.set_get_self (m : FuelMap) (f : FuelType) :
    m.set f (m.get f) = m := by
  cases f <;> rfl

theorem find?_id_map (cs : List Customer) (g : Customer → Customer)
    (hid : ∀ c, (g c).id = c.id) (p : Nat) :
    (cs.map g).find? (fun c => c.id == p) = (cs.find? (fun c => c.id == p)).map g := by
  induction cs with
  | nil => rfl
  | cons c cs ih =>
    by_cases h : c.id = p
    · rw [List.map_cons, List.find?_cons_of_pos, List.find?_cons_of_pos] <;>
        simp [hid, h]
    · rw [List.map_cons, List.find?_cons_of_neg, List.find?_cons_of_neg, ih] <;>
        simp [hid, h]

theorem wsum_filter_not_id (w : Transaction → ℚ) :
    ∀ (ts : List Transaction) (i : Nat) (t0 : Transaction),
    (ts.map Transaction.id).Nodup →
    ts.find? (fun t => t.id == i) = some t0 →
    ((ts.filter (fun t => !(t.id == i))).map w).sum = (ts.map w).sum - w t0 := by
  intro ts
  induction ts with
  | nil => intro i t0 _ hf; simp at hf
  | cons t ts ih =>
    intro i t0 hn hf
    rw [List.map_cons, List.nodup_cons] at hn
    by_cases h : t.id = i
    · rw [List.find?_cons_of_pos _ (by simp [h])] at hf
      cases hf
      have hrest : ts.filter (fun t => !(t.id == i)) = ts := by
        apply List.filter_eq_self.mpr
        intro x hx
        simp only [Bool.not_eq_true', beq_eq_false_iff_ne, ne_eq]
        intro hxi
        exact hn.1 (by rw [h, ← hxi]; exact List.mem_map_of_mem Transaction.id hx)
      rw [List.filter_cons_of_neg (by simp [h]), hrest, List.map_cons, List.sum_cons]
      ring
    · rw [List.find?_cons_of_neg _ (by simp [h])] at hf
      rw [List.filter_cons_of_pos (by simp [h]), List.map_cons, List.sum_cons,
        List.map_cons, List.sum_cons, ih i t0 hn.2 hf]
      ring

theorem filter_not_id_of_find?_none (ts : List Transaction) (i : Nat)
    (hf : ts.find? (fun t => t.id == i) = none) :
    ts.filter (fun t => !(t.id == i)) = ts := by
  apply List.filter_eq_self.mpr
  intro x hx
  have := List.find?_eq_none.mp hf x hx
  simpa using this

theorem addTransaction_transactions (s : AppState) (d : TxDraft) :
    (addTransaction s d).transactions =
      { id := s.nextId, type := d.type, fuelType := d.fuelType,
        quantity := d.quantity, amount := d.amount, isCredit := d.isCredit,
        customerId := d.customerId, customerName := d.customerName,
        description := d.description, timestamp := s.now } :: s.transactions := rfl

theorem addTransaction_customers (s : AppState) (d : TxDraft) :
    (addTransaction s d).customers = s.customers := rfl

theorem addTransaction_fuelStock (s : AppState) (d : TxDraft) :
    (addTransaction s d).fuelStock = s.fuelStock := rfl

theorem addTransaction_fuelPrices (s : AppState) (d : TxDraft) :
    (addTransaction s d).fuelPrices = s.fuelPrices := rfl

theorem addTransaction_nextId (s : AppState) (d : TxDraft) :
    (addTransaction s d).nextId = s.nextId + 1 := rfl

theorem reverseTransaction_transactions (s : AppState) (t : Transaction) :
    (reverseTransaction s t).transactions = s.transactions := by
  obtain ⟨tid, ty, ft, q, am, cr, cid, cn, dsc, tst⟩ := t
  cases ty <;> rcases ft with _ | f <;> rcases q with _ | q <;>
    rcases cid with _ | cid <;> cases cr <;>
      simp [reverseTransaction, apply_ite AppState.transactions, ite_self]

theorem reverseTransaction_nextId (s : AppState) (t : Transaction) :
    (reverseTransaction s t).nextId = s.nextId := by
  obtain ⟨tid, ty, ft, q, am, cr, cid, cn, dsc, tst⟩ := t
  cases ty <;> rcases ft with _ | f <;> rcases q with _ | q <;>
    rcases cid with _ | cid <;> cases cr <;>
      simp [reverseTransaction, apply_ite AppState.nextId, ite_self]

theorem reverseTransaction_now (s : AppState) (t : Transaction) :
    (reverseTransaction s t).now = s.now := by
  obtain ⟨tid, ty, ft, q, am, cr, cid, cn, dsc, tst⟩ := t
  cases ty <;> rcases ft with _ | f <;> rcases q with _ | q <;>
    rcases cid with _ | cid <;> cases cr <;>
      simp [reverseTransaction, apply_ite AppState.now, ite_self]

theorem reverseTransaction_fuelPrices (s : AppState) (t : Transaction) :
    (reverseTransaction s t).fuelPrices = s.fuelPrices := by
  obtain ⟨tid, ty, ft, q, am, cr, cid, cn, dsc, tst⟩ := t
  cases ty <;> rcases ft with _ | f <;> rcases q with _ | q <;>
    rcases cid with _ | cid <;> cases cr <;>
      simp [reverseTransaction, apply_ite AppState.fuelPrices, ite_self]

/-- Full description of the customer-side effect of the reversal switch. -/
theorem reverseTransaction_customers (s : AppState) (t : Transaction) :
    (reverseTransaction s t).customers =
      if t.type = TxType.sale ∧ t.isCredit = true then
        match t.customerId with
        | some cid => s.customers.map (fun c =>
            if c.id == cid then { c with balance := c.balance - t.amount } else c)
        | none => s.customers
      else if t.type = TxType.repayment then
        match t.customerId with
        | some cid => s.customers.map (fun c =>
            if c.id == cid then { c with balance := c.balance + t.amount } else c)
        | none => s.customers
      else s.customers := by
  obtain ⟨tid, ty, ft, q, am, cr, cid, cn, dsc, tst⟩ := t
  cases ty <;> rcases ft with _ | f <;> rcases q with _ | q <;>
    rcases cid with _ | cid <;> cases cr <;>
      simp [reverseTransaction, apply_ite AppState.customers, ite_self]

/-- Full description of the stock-side effect of the reversal switch. -/
theorem reverseTransaction_fuelStock (s : AppState) (t : Transaction) :
    (reverseTransaction s t).fuelStock =
      match t.type, t.fuelType, t.quantity with
      | TxType.sale, some f, some q =>
        if q = 0 then s.fuelStock else s.fuelStock.set f (s.fuelStock.get f + q)
      | TxType.stock, some f, some q =>
        if q = 0 then s.fuelStock else s.fuelStock.set f (s.fuelStock.get f - q)
      | _, _, _ => s.fuelStock := by
  obtain ⟨tid, ty, ft, q, am, cr, cid, cn, dsc, tst⟩ := t
  cases ty <;> rcases ft with _ | f <;> rcases q with _ | q <;>
    rcases cid with _ | cid <;> cases cr <;>
      simp [reverseTransaction, apply_ite AppState.fuelStock, ite_self]

theorem onSaleSubmit_insufficient (s : AppState) (v : SaleValues)
    (h : s.fuelStock.get v.fuelType < v.quantity) :
    onSaleSubmit s v = Except.error SaleError.insufficientStock := by
  unfold onSaleSubmit
  rw [if_pos h]

theorem onSaleSubmit_cash (s : AppState) (v : SaleValues)
    (h : ¬ s.fuelStock.get v.fuelType < v.quantity)
    (hg : (v.isCredit && strTruthy v.customerName) = false) :
    onSaleSubmit s v =
      Except.ok (addTransaction (saleStockUpdated s v)
        (saleDraft v (v.quantity * s.fuelPrices.get v.fuelType) none)) := by
  unfold onSaleSubmit
  rw [if_neg h]
  simp only [hg, Bool.false_eq_true, if_false]
  rfl

theorem onSaleSubmit_credit_found (s : AppState) (v : SaleValues) (n : String) (c : Customer)
    (h : ¬ s.fuelStock.get v.fuelType < v.quantity)
    (hcr : v.isCredit = true) (hname : v.customerName = some n) (hne : n ≠ "")
    (hfind : s.customers.find? (fun x => strLower x.name == strLower n) = some c) :
    onSaleSubmit s v =
      Except.ok (addTransaction
        { saleStockUpdated s v with customers := s.customers.map (fun x =>
            if x.id == c.id then
              { c with balance := c.balance + v.quantity * s.fuelPrices.get v.fuelType }
            else x) }
        (saleDraft v (v.quantity * s.fuelPrices.get v.fuelType) (some c.id))) := by
  unfold onSaleSubmit
  rw [if_neg h, hname]
  have hEmp : n.isEmpty = false := by
    rcases Bool.eq_false_or_eq_true n.isEmpty with hx | hx
    · exact absurd ((String.isEmpty_iff n).mp hx) hne
    · exact hx
  simp only [hcr, strTruthy, hEmp, Bool.not_false, Bool.and_self, if_true]
  rw [show ({ s with fuelStock := s.fuelStock.set v.fuelType (s.fuelStock.get v.fuelType - v.quantity) } : AppState).customers = s.customers from rfl, hfind]
  simp only [saleDraft, saleStockUpdated, hcr, hname]

theorem onSaleSubmit_credit_new (s : AppState) (v : SaleValues) (n : String)
    (h : ¬ s.fuelStock.get v.fuelType < v.quantity)
    (hcr : v.isCredit = true) (hname : v.customerName = some n) (hne : n ≠ "")
    (hfind : s.customers.find? (fun x => strLower x.name == strLower n) = none) :
    onSaleSubmit s v =
      Except.ok (addTransaction
        { saleStockUpdated s v with
            customers := s.customers ++
              [{ id := s.nextId, name := n, balance := v.quantity * s.fuelPrices.get v.fuelType }],
            nextId := s.nextId + 1 }
        (saleDraft v (v.quantity * s.fuelPrices.get v.fuelType) (some s.nextId))) := by
  unfold onSaleSubmit
  rw [if_neg h, hname]
  have hEmp : n.isEmpty = false := by
    rcases Bool.eq_false_or_eq_true n.isEmpty with hx | hx
    · exact absurd ((String.isEmpty_iff n).mp hx) hne
    · exact hx
  simp only [hcr, strTruthy, hEmp, Bool.not_false, Bool.and_self, if_true]
  rw [show ({ s with fuelStock := s.fuelStock.set v.fuelType (s.fuelStock.get v.fuelType - v.quantity) } : AppState).customers = s.customers from rfl, hfind]
  simp only [saleDraft, saleStockUpdated, hcr, hname]

theorem recordRepayment_not_found (s : AppState) (cid : Nat) (a : ℚ)
    (hf : s.customers.find? (fun c => c.id == cid) = none) :
    recordRepayment s cid a = s := by
  unfold recordRepayment
  rw [hf]

theorem recordRepayment_found (s : AppState) (cid : Nat) (a : ℚ) (c : Customer)
    (hf : s.customers.find? (fun c => c.id == cid) = some c) :
    recordRepayment s cid a =
      addTransaction
        { s with customers := s.customers.map (fun x =>
            if x.id == cid then { c with balance := c.balance - a } else x) }
        { type := TxType.repayment, fuelType := none, quantity := none, amount := a,
          isCredit := false, customerId := some cid, customerName := some c.name,
          description := none } := by
  unfold recordRepayment
  rw [hf]

theorem deleteTransaction_not_found (s : AppState) (i : Nat)
    (hf : s.transactions.find? (fun t => t.id == i) = none) :
    deleteTransaction s i = s := by
  unfold deleteTransaction
  rw [hf]

theorem deleteTransaction_found (s : AppState) (i : Nat) (t0 : Transaction)
    (hf : s.transactions.find? (fun t => t.id == i) = some t0) :
    deleteTransaction s i =
      { reverseTransaction s t0 with
        transactions := s.transactions.filter (fun x => !(x.id == i)) } := by
  unfold deleteTransaction
  rw [hf]
  dsimp only
  rw [reverseTransaction_transactions s t0]

theorem strTruthy_some_ne (o : Option String) (h : strTruthy o = true) :
    ∃ n, o = some n ∧ n ≠ "" := by
  cases o with
  | none => simp [strTruthy] at h
  | some n =>
    refine ⟨n, rfl, ?_⟩
    intro he
    rw [he] at h
    exact absurd h (by decide)

/-- Whenever the stock guard passes, onSaleSubmit succeeds, decrements the
stock of the sold fuel type by the quantity, and prepends one sale entry. -/
theorem onSaleSubmit_ok_char (s : AppState) (v : SaleValues)
    (h : ¬ s.fuelStock.get v.fuelType < v.quantity) :
    ∃ s2, onSaleSubmit s v = Except.ok s2 ∧
      s2.fuelStock = s.fuelStock.set v.fuelType (s.fuelStock.get v.fuelType - v.quantity) ∧
      ∃ t, s2.transactions = t :: s.transactions ∧ t.type = TxType.sale ∧
        t.fuelType = some v.fuelType ∧ t.quantity = some v.quantity ∧
        t.amount = v.quantity * s.fuelPrices.get v.fuelType ∧ t.isCredit = v.isCredit := by
  by_cases hg : (v.isCredit && strTruthy v.customerName) = true
  · rcases (show v.isCredit = true ∧ strTruthy v.customerName = true by simpa using hg) with ⟨hcr, hstr⟩
    obtain ⟨n, hvn, hne⟩ := strTruthy_some_ne v.customerName hstr
    cases hfind : s.customers.find? (fun x => strLower x.name == strLower n) with
    | some c =>
      rw [onSaleSubmit_credit_found s v n c h hcr hvn hne hfind]
      exact ⟨_, rfl, rfl, _, rfl, rfl, rfl, rfl, rfl, rfl⟩
    | none =>
      rw [onSaleSubmit_credit_new s v n h hcr hvn hne hfind]
      exact ⟨_, rfl, rfl, _, rfl, rfl, rfl, rfl, rfl, rfl⟩
  · rw [onSaleSubmit_cash s v h (Bool.eq_false_iff.mpr hg)]
    exact ⟨_, rfl, rfl, _, rfl, rfl, rfl, rfl, rfl, rfl⟩

/-- Claim C5: for every state and sale submission, the insufficient-stock
guard fails the sale exactly when the quantity strictly exceeds the stock of
the chosen fuel type, and otherwise the sale succeeds, the stock of that fuel
type drops by the quantity, and one sale transaction is prepended to the
ledger.  A failed sale returns only the error, so no store is mutated. -/
theorem claim5_insufficient_stock_dichotomy (s : AppState) (v : SaleValues) :
    (s.fuelStock.get v.fuelType < v.quantity ↔
      onSaleSubmit s v = Except.error SaleError.insufficientStock) ∧
    (v.quantity ≤ s.fuelStock.get v.fuelType ↔
      ∃ s2, onSaleSubmit s v = Except.ok s2 ∧
        s2.fuelStock.get v.fuelType = s.fuelStock.get v.fuelType - v.quantity ∧
        ∃ t, s2.transactions = t :: s.transactions ∧ t.type = TxType.sale ∧
          t.fuelType = some v.fuelType ∧ t.quantity = some v.quantity ∧
          t.amount = v.quantity * s.fuelPrices.get v.fuelType ∧
          t.isCredit = v.isCredit) := by
  constructor
  · constructor
    · exact onSaleSubmit_insufficient s v
    · intro he
      by_contra hlt
      obtain ⟨s2, hok, -⟩ := onSaleSubmit_ok_char s v hlt
      rw [hok] at he
      exact Except.noConfusion he
  · constructor
    · intro hle
      have h : ¬ s.fuelStock.get v.fuelType < v.quantity := not_lt.mpr hle
      obtain ⟨s2, hok, hfs, ht⟩ := onSaleSubmit_ok_char s v h
      exact ⟨s2, hok, by rw [hfs, FuelMap.get_set_self], ht⟩
    · rintro ⟨s2, hok, -⟩
      by_contra hlt
      rw [not_le] at hlt
      rw [onSaleSubmit_insufficient s v hlt] at hok
      exact Except.noConfusion hok

/-- Claim C10: a sale whose quantity equals the current stock of its fuel
type is accepted (the guard rejects only strictly larger quantities) and
leaves that stock at exactly zero. -/
theorem claim10_sale_of_exact_stock (s : AppState) (v : SaleValues)
    (h : s.fuelStock.get v.fuelType = v.quantity) :
    ∃ s2, onSaleSubmit s v = Except.ok s2 ∧ s2.fuelStock.get v.fuelType = 0 := by
  obtain ⟨s2, hok, hfs, -⟩ := onSaleSubmit_ok_char s v (by rw [h]; exact lt_irrefl _)
  exact ⟨s2, hok, by rw [hfs, FuelMap.get_set_self, h, sub_self]⟩

/-- Claim C9: a repayment against a customer id that matches no existing
customer is a silent no-op, returning the state entirely unchanged. -/
theorem claim9_repayment_unknown_customer_noop (s : AppState) (cid : Nat) (a : ℚ)
    (h : ∀ c ∈ s.customers, c.id ≠ cid) :
    recordRepayment s cid a = s := by
  apply recordRepayment_not_found
  apply List.find?_eq_none.mpr
  intro c hc
  simpa using h c hc

/-- Amended claim C1: the repayment guard lives in the submission handler of
the credit-management component, not inside recordRepayment: for an amount
strictly above the customer balance, onRepaymentSubmit fails with the
amount-exceeds-balance error and returns no state, so recordRepayment is
never invoked and every store is left unchanged. -/
theorem claim1_guard_in_submission_handler (s : AppState) (c : Customer) (a : ℚ)
    (h : c.balance < a) :
    onRepaymentSubmit s c a = Except.error RepayError.repaymentExceedsBalance := by
  unfold onRepaymentSubmit
  rw [if_pos h]

/-- Counterexample to claim C1 as stated: recordRepayment itself enforces no
guard.  Repaying 200 against a balance of 100 does not fail with
RepaymentExceedsBalance: it drives the balance to -100 and appends a
repayment entry, so the state is not left unchanged. -/
theorem claim1_counterexample_unguarded :
    balanceOf exAliState 0 = some 100 ∧
    balanceOf (recordRepayment exAliState 0 200) 0 = some (-100) ∧
    (recordRepayment exAliState 0 200).transactions.length = 1 := by
  refine ⟨rfl, ?_, rfl⟩
  norm_num [balanceOf, recordRepayment, exAliState, addTransaction, List.find?]

theorem claim1_witness :
    onRepaymentSubmit exAliState { id := 0, name := "Ali", balance := 100 } 200 =
      Except.error RepayError.repaymentExceedsBalance :=
  claim1_guard_in_submission_handler exAliState
    { id := 0, name := "Ali", balance := 100 } 200 (by norm_num)

theorem claim9_witness : recordRepayment exAliState 7 4 = exAliState :=
  claim9_repayment_unknown_customer_noop exAliState 7 4 (by decide)

theorem foldl_add_amount (ts : List Transaction) (a : ℚ) :
    ts.foldl (fun sum t => sum + t.amount) a = a + (ts.map Transaction.amount).sum := by
  induction ts generalizing a with
  | nil => simp
  | cons t ts ih => rw [List.foldl_cons, ih, List.map_cons, List.sum_cons, add_assoc]

theorem foldl_add_balance (cs : List Customer) (a : ℚ) :
    cs.foldl (fun sum c => sum + c.balance) a = a + (cs.map Customer.balance).sum := by
  induction cs generalizing a with
  | nil => simp
  | cons c cs ih => rw [List.foldl_cons, ih, List.map_cons, List.sum_cons, add_assoc]

/-- Claim C7: each derived aggregate is exactly the sum the spec describes,
computed from the current transactions and customers alone, nothing cached:
totalSales sums the amounts of today's sale entries (cash and credit),
totalExpenses those of today's expense entries, creditDue sums every customer
balance, and netRevenue is totalSales minus today's credit sales minus
totalExpenses.  Being a pure function, recomputing it without an intervening
mutation yields the identical record. -/
theorem claim7_aggregates_pure_sums (ts : List Transaction) (cs : List Customer) (d : Nat) :
    (computeAggregates ts cs d).totalSales =
      ((ts.filter (fun t => d ≤ t.timestamp ∧ t.type = TxType.sale)).map
        Transaction.amount).sum ∧
    (computeAggregates ts cs d).totalExpenses =
      ((ts.filter (fun t => d ≤ t.timestamp ∧ t.type = TxType.expense)).map
        Transaction.amount).sum ∧
    (computeAggregates ts cs d).creditDue = (cs.map Customer.balance).sum ∧
    (computeAggregates ts cs d).netRevenue =
      (computeAggregates ts cs d).totalSales -
        ((ts.filter (fun t =>
            d ≤ t.timestamp ∧ t.type = TxType.sale ∧ t.isCredit = true)).map
          Transaction.amount).sum -
        (computeAggregates ts cs d).totalExpenses ∧
    computeAggregates ts cs d = computeAggregates ts cs d := by
  have hsale : (ts.filter (fun t => d ≤ t.timestamp)).filter (fun t => t.type == TxType.sale) =
      ts.filter (fun t => d ≤ t.timestamp ∧ t.type = TxType.sale) := by
    rw [List.filter_filter]
    apply List.filter_congr
    intro t _
    by_cases h1 : d ≤ t.timestamp <;> by_cases h2 : t.type = TxType.sale <;> simp [h1, h2]
  have hexp : (ts.filter (fun t => d ≤ t.timestamp)).filter (fun t => t.type == TxType.expense) =
      ts.filter (fun t => d ≤ t.timestamp ∧ t.type = TxType.expense) := by
    rw [List.filter_filter]
    apply List.filter_congr
    intro t _
    by_cases h1 : d ≤ t.timestamp <;> by_cases h2 : t.type = TxType.expense <;> simp [h1, h2]
  have hcredit : (ts.filter (fun t => d ≤ t.timestamp)).filter
        (fun t => t.type == TxType.sale && t.isCredit) =
      ts.filter (fun t => d ≤ t.timestamp ∧ t.type = TxType.sale ∧ t.isCredit = true) := by
    rw [List.filter_filter]
    apply List.filter_congr
    intro t _
    by_cases h1 : d ≤ t.timestamp <;> by_cases h2 : t.type = TxType.sale <;>
      cases h3 : t.isCredit <;> simp [h1, h2, h3]
  refine ⟨?_, ?_, ?_, ?_, rfl⟩
  · show ((ts.filter (fun t => d ≤ t.timestamp)).filter
        (fun t => t.type == TxType.sale)).foldl (fun sum t => sum + t.amount) 0 = _
    rw [foldl_add_amount, zero_add, hsale]
  · show ((ts.filter (fun t => d ≤ t.timestamp)).filter
        (fun t => t.type == TxType.expense)).foldl (fun sum t => sum + t.amount) 0 = _
    rw [foldl_add_amount, zero_add, hexp]
  · show cs.foldl (fun sum c => sum + c.balance) 0 = _
    rw [foldl_add_balance, zero_add]
  · have hc2 : ((ts.filter (fun t => d ≤ t.timestamp)).filter
        (fun t => t.type == TxType.sale && t.isCredit)).foldl
          (fun sum t => sum + t.amount) 0 =
        ((ts.filter (fun t =>
            d ≤ t.timestamp ∧ t.type = TxType.sale ∧ t.isCredit = true)).map
          Transaction.amount).sum := by
      rw [foldl_add_amount, zero_add, hcredit]
    show _ - ((ts.filter (fun t => d ≤ t.timestamp)).filter
        (fun t => t.type == TxType.sale && t.isCredit)).foldl
          (fun sum t => sum + t.amount) 0 - _ = _
    rw [hc2]
    rfl

/-- Claim C8: deleteCustomer removes exactly the customer records carrying
the given id and keeps every other customer record untouched; it keeps every
transaction in the ledger with its id, type, amounts, quantities, timestamps
and description intact, merely clearing the customer link on the entries
that referenced the deleted customer; fuel stock and prices are untouched,
and no balance effect is reversed. -/
theorem claim8_delete_customer_soft (s : AppState) (cid : Nat) :
    (∀ c ∈ (deleteCustomer s cid).customers, c.id ≠ cid) ∧
    (∀ c ∈ s.customers, c.id ≠ cid → c ∈ (deleteCustomer s cid).customers) ∧
    (∀ c ∈ (deleteCustomer s cid).customers, c ∈ s.customers) ∧
    (deleteCustomer s cid).fuelStock = s.fuelStock ∧
    (deleteCustomer s cid).fuelPrices = s.fuelPrices ∧
    List.Forall₂ (fun t t2 =>
        t2.id = t.id ∧ t2.type = t.type ∧ t2.fuelType = t.fuelType ∧
        t2.quantity = t.quantity ∧ t2.amount = t.amount ∧
        t2.isCredit = t.isCredit ∧ t2.description = t.description ∧
        t2.timestamp = t.timestamp ∧
        (t.customerId = some cid → t2.customerId = none ∧ t2.customerName = none) ∧
        (t.customerId ≠ some cid →
          t2.customerId = t.customerId ∧ t2.customerName = t.customerName))
      s.transactions (deleteCustomer s cid).transactions := by
  refine ⟨?_, ?_, ?_, rfl, rfl, ?_⟩
  · intro c hc
    have := (List.mem_filter.mp hc).2
    simpa using this
  · intro c hc hne
    exact List.mem_filter.mpr ⟨hc, by simpa using hne⟩
  · intro c hc
    exact (List.mem_filter.mp hc).1
  · show List.Forall₂ _ s.transactions (s.transactions.map _)
    rw [List.forall₂_map_right_iff]
    apply List.forall₂_same.mpr
    intro t _
    by_cases h : t.customerId = some cid
    · rw [h, if_pos (by simp)]
      exact ⟨rfl, rfl, rfl, rfl, rfl, rfl, rfl, rfl, fun _ => ⟨rfl, rfl⟩,
        fun hne => absurd rfl hne⟩
    · rw [if_neg (by simpa using h)]
      exact ⟨rfl, rfl, rfl, rfl, rfl, rfl, rfl, rfl, fun hx => absurd hx h,
        fun _ => ⟨rfl, rfl⟩⟩

theorem balanceOf_congr (s1 s2 : AppState) (p : Nat) (h : s1.customers = s2.customers) :
    balanceOf s1 p = balanceOf s2 p := by
  unfold balanceOf
  rw [h]

theorem stock_sub_add_cancel (m : FuelMap) (f : FuelType) (q : ℚ) :
    (if q = 0 then m.set f (m.get f - q)
     else (m.set f (m.get f - q)).set f ((m.set f (m.get f - q)).get f + q)) = m := by
  by_cases hq : q = 0
  · rw [if_pos hq, hq, sub_zero, FuelMap.set_get_self]
  · rw [if_neg hq, FuelMap.get_set_self, FuelMap.set_set, sub_add_cancel,
      FuelMap.set_get_self]

theorem stock_add_sub_cancel (m : FuelMap) (f : FuelType) (q : ℚ) :
    (if q = 0 then m.set f (m.get f + q)
     else (m.set f (m.get f + q)).set f ((m.set f (m.get f + q)).get f - q)) = m := by
  by_cases hq : q = 0
  · rw [if_pos hq, hq, add_zero, FuelMap.set_get_self]
  · rw [if_neg hq, FuelMap.get_set_self, FuelMap.set_set, add_sub_cancel_right,
      FuelMap.set_get_self]

theorem restores_expense (s : AppState) (d : String) (a : ℚ) :
    RestoresCoreState s (deleteTransaction (onExpenseSubmit s d a) s.nextId) := by
  have hfind : (onExpenseSubmit s d a).transactions.find? (fun x => x.id == s.nextId) =
      some { id := s.nextId, type := TxType.expense, fuelType := none, quantity := none,
             amount := a, isCredit := false, customerId := none, customerName := none,
             description := some d, timestamp := s.now } :=
    List.find?_cons_of_pos _ (by simp)
  rw [deleteTransaction_found _ _ _ hfind]
  exact ⟨rfl, fun c hc => rfl⟩

theorem restores_addStock (s : AppState) (f : FuelType) (q : ℚ) :
    RestoresCoreState s (deleteTransaction (addStock s f q) s.nextId) := by
  have hfind : (addStock s f q).transactions.find? (fun x => x.id == s.nextId) =
      some { id := s.nextId, type := TxType.stock, fuelType := some f, quantity := some q,
             amount := 0, isCredit := false, customerId := none, customerName := none,
             description := some ("Added " ++ toString q ++ "L of " ++ fuelName f),
             timestamp := s.now } :=
    List.find?_cons_of_pos _ (by simp)
  rw [deleteTransaction_found _ _ _ hfind]
  constructor
  · show (reverseTransaction (addStock s f q) _).fuelStock = s.fuelStock
    rw [reverseTransaction_fuelStock]
    exact stock_add_sub_cancel s.fuelStock f q
  · intro c hc
    refine balanceOf_congr _ s c.id ?_
    show (reverseTransaction (addStock s f q) _).customers = s.customers
    rw [reverseTransaction_customers]
    simp [addStock, addTransaction]

theorem restores_repayment (s : AppState) (cid : Nat) (a : ℚ) (c : Customer)
    (hf : s.customers.find? (fun x => x.id == cid) = some c) :
    RestoresCoreState s (deleteTransaction (recordRepayment s cid a) s.nextId) := by
  have hcid : c.id = cid := by simpa using List.find?_some hf
  rw [recordRepayment_found s cid a c hf]
  have hfind : (addTransaction
      { s with customers := s.customers.map (fun x =>
          if x.id == cid then { c with balance := c.balance - a } else x) }
      { type := TxType.repayment, fuelType := none, quantity := none, amount := a,
        isCredit := false, customerId := some cid, customerName := some c.name,
        description := none }).transactions.find? (fun x => x.id == s.nextId) =
      some { id := s.nextId, type := TxType.repayment, fuelType := none, quantity := none,
             amount := a, isCredit := false, customerId := some cid,
             customerName := some c.name, description := none, timestamp := s.now } :=
    List.find?_cons_of_pos _ (by simp)
  rw [deleteTransaction_found _ _ _ hfind]
  refine ⟨rfl, fun c2 hc2 => ?_⟩
  have hDc : (reverseTransaction (addTransaction
      { s with customers := s.customers.map (fun x =>
          if x.id == cid then { c with balance := c.balance - a } else x) }
      { type := TxType.repayment, fuelType := none, quantity := none, amount := a,
        isCredit := false, customerId := some cid, customerName := some c.name,
        description := none })
      { id := s.nextId, type := TxType.repayment, fuelType := none, quantity := none,
        amount := a, isCredit := false, customerId := some cid,
        customerName := some c.name, description := none, timestamp := s.now }).customers =
      (s.customers.map (fun x =>
          if x.id == cid then { c with balance := c.balance - a } else x)).map (fun x =>
          if x.id == cid then { x with balance := x.balance + a } else x) := by
    rw [reverseTransaction_customers]
    simp [addTransaction]
  have hid : ∀ x : Customer, (((fun x => if x.id == cid then { x with balance := x.balance + a } else x) ∘
      (fun x => if x.id == cid then { c with balance := c.balance - a } else x)) x).id = x.id := by
    intro x
    by_cases hx : x.id = cid
    · simp [Function.comp, hx, hcid]
    · simp [Function.comp, hx]
  unfold balanceOf
  dsimp only
  rw [hDc, List.map_map, find?_id_map s.customers _ hid c2.id]
  cases hfp : s.customers.find? (fun x => x.id == c2.id) with
  | none => rfl
  | some x0 =>
    rw [Option.map_some', Option.map_some', Option.map_some']
    refine congrArg some ?_
    show ((fun x => if x.id == cid then { x with balance := x.balance + a } else x)
        ((fun x => if x.id == cid then { c with balance := c.balance - a } else x) x0)).balance =
      x0.balance
    by_cases hp : x0.id = cid
    · have hpc : c2.id = cid := by
        have hx0p : x0.id = c2.id := by simpa using List.find?_some hfp
        rw [← hx0p, hp]
      have hx0c : x0 = c := by
        have heq : s.customers.find? (fun x => x.id == c2.id) = some c := by
          rw [show (fun x : Customer => x.id == c2.id) = (fun x : Customer => x.id == cid) from by
            funext x; rw [hpc]]
          exact hf
        rw [hfp] at heq
        exact Option.some_injective _ heq
      subst hx0c
      simp [hp, sub_add_cancel]
    · simp [hp]

theorem find?_id_head (ts : List Transaction) (t : Transaction) (h : ts.head? = some t) :
    ts.find? (fun x => x.id == t.id) = some t := by
  cases ts with
  | nil => exact Option.noConfusion h
  | cons a l =>
    rw [List.head?_cons] at h
    injection h with h2
    subst h2
    exact List.find?_cons_of_pos _ (by simp)

theorem restores_sale (s : AppState) (v : SaleValues) (s2 : AppState) (t : Transaction)
    (hcb : ∀ c ∈ s.customers, c.id < s.nextId)
    (hcn : (s.customers.map Customer.id).Nodup)
    (hok : onSaleSubmit s v = Except.ok s2)
    (ht : s2.transactions.head? = some t) :
    RestoresCoreState s (deleteTransaction s2 t.id) := by
  have hstock : ¬ s.fuelStock.get v.fuelType < v.quantity := by
    intro hlt
    rw [onSaleSubmit_insufficient s v hlt] at hok
    exact Except.noConfusion hok
  by_cases hg : (v.isCredit && strTruthy v.customerName) = true
  · rcases (show v.isCredit = true ∧ strTruthy v.customerName = true by simpa using hg)
      with ⟨hcr, hstr⟩
    obtain ⟨n, hvn, hne⟩ := strTruthy_some_ne v.customerName hstr
    cases hfind : s.customers.find? (fun x => strLower x.name == strLower n) with
    | some c =>
      rw [onSaleSubmit_credit_found s v n c hstock hcr hvn hne hfind] at hok
      cases hok
      have htf : t.type = TxType.sale ∧ t.fuelType = some v.fuelType ∧
          t.quantity = some v.quantity ∧
          t.amount = v.quantity * s.fuelPrices.get v.fuelType ∧
          t.isCredit = v.isCredit ∧ t.customerId = some c.id := by
        rw [addTransaction_transactions, List.head?_cons] at ht
        injection ht with ht2
        rw [← ht2]
        exact ⟨rfl, rfl, rfl, rfl, rfl, rfl⟩
      rw [deleteTransaction_found _ _ _ (find?_id_head _ _ ht)]
      constructor
      · show (reverseTransaction _ t).fuelStock = s.fuelStock
        rw [reverseTransaction_fuelStock, htf.1, htf.2.1, htf.2.2.1]
        exact stock_sub_add_cancel s.fuelStock v.fuelType v.quantity
      · intro c2 hc2
        unfold balanceOf
        dsimp only
        rw [reverseTransaction_customers, htf.1, htf.2.2.2.2.1.trans hcr,
          htf.2.2.2.2.2, htf.2.2.2.1]
        rw [if_pos ⟨rfl, rfl⟩]
        dsimp only [addTransaction, saleStockUpdated]
        rw [List.map_map]
        have hid : ∀ x : Customer,
            (((fun c_1 => if c_1.id == c.id then
                { c_1 with balance := c_1.balance - v.quantity * s.fuelPrices.get v.fuelType }
              else c_1) ∘
              (fun x => if x.id == c.id then
                { c with balance := c.balance + v.quantity * s.fuelPrices.get v.fuelType }
              else x)) x).id = x.id := by
          intro x
          by_cases hx : x.id = c.id
          · simp [Function.comp, hx]
          · simp [Function.comp, hx]
        rw [find?_id_map s.customers _ hid c2.id]
        cases hfp : s.customers.find? (fun x => x.id == c2.id) with
        | none => rfl
        | some x0 =>
          rw [Option.map_some', Option.map_some', Option.map_some']
          refine congrArg some ?_
          show ((fun c_1 => if c_1.id == c.id then
              { c_1 with balance := c_1.balance - v.quantity * s.fuelPrices.get v.fuelType }
            else c_1)
            ((fun x => if x.id == c.id then
              { c with balance := c.balance + v.quantity * s.fuelPrices.get v.fuelType }
            else x) x0)).balance = x0.balance
          by_cases hp : x0.id = c.id
          · have hx0c : x0 = c :=
              List.inj_on_of_nodup_map hcn (List.mem_of_find?_eq_some hfp)
                (List.mem_of_find?_eq_some hfind) hp
            subst hx0c
            simp [hp, add_sub_cancel_right]
          · simp [hp]
    | none =>
      rw [onSaleSubmit_credit_new s v n hstock hcr hvn hne hfind] at hok
      cases hok
      have htf : t.type = TxType.sale ∧ t.fuelType = some v.fuelType ∧
          t.quantity = some v.quantity ∧
          t.amount = v.quantity * s.fuelPrices.get v.fuelType ∧
          t.isCredit = v.isCredit ∧ t.customerId = some s.nextId := by
        rw [addTransaction_transactions, List.head?_cons] at ht
        injection ht with ht2
        rw [← ht2]
        exact ⟨rfl, rfl, rfl, rfl, rfl, rfl⟩
      rw [deleteTransaction_found _ _ _ (find?_id_head _ _ ht)]
      constructor
      · show (reverseTransaction _ t).fuelStock = s.fuelStock
        rw [reverseTransaction_fuelStock, htf.1, htf.2.1, htf.2.2.1]
        exact stock_sub_add_cancel s.fuelStock v.fuelType v.quantity
      · intro c2 hc2
        unfold balanceOf
        dsimp only
        rw [reverseTransaction_customers, htf.1, htf.2.2.2.2.1.trans hcr,
          htf.2.2.2.2.2, htf.2.2.2.1]
        rw [if_pos ⟨rfl, rfl⟩]
        dsimp only [addTransaction, saleStockUpdated]
        have hid : ∀ x : Customer,
            ((fun c_1 => if c_1.id == s.nextId then
              { c_1 with balance := c_1.balance - v.quantity * s.fuelPrices.get v.fuelType }
            else c_1) x).id = x.id := by
          intro x
          by_cases hx : x.id = s.nextId
          · simp [hx]
          · simp [hx]
        rw [find?_id_map _ _ hid c2.id, List.find?_append]
        cases hfp : s.customers.find? (fun x => x.id == c2.id) with
        | none => exact absurd (by simp) (List.find?_eq_none.mp hfp c2 hc2)
        | some x0 =>
          have hor : (some x0).or (List.find? (fun x => x.id == c2.id)
              [{ id := s.nextId, name := n,
                 balance := v.quantity * s.fuelPrices.get v.fuelType }]) = some x0 := rfl
          rw [hor, Option.map_some', Option.map_some']
          refine congrArg some ?_
          have hx0 : x0 ∈ s.customers := List.mem_of_find?_eq_some hfp
          have hxne : x0.id ≠ s.nextId := Nat.ne_of_lt (hcb x0 hx0)
          show ((fun c_1 => if c_1.id == s.nextId then
              { c_1 with balance := c_1.balance - v.quantity * s.fuelPrices.get v.fuelType }
            else c_1) x0).balance = x0.balance
          simp [hxne]
  · rw [onSaleSubmit_cash s v hstock (Bool.eq_false_iff.mpr hg)] at hok
    cases hok
    have htf : t.type = TxType.sale ∧ t.fuelType = some v.fuelType ∧
        t.quantity = some v.quantity ∧ t.customerId = none := by
      rw [addTransaction_transactions, List.head?_cons] at ht
      injection ht with ht2
      rw [← ht2]
      exact ⟨rfl, rfl, rfl, rfl⟩
    rw [deleteTransaction_found _ _ _ (find?_id_head _ _ ht)]
    constructor
    · show (reverseTransaction _ t).fuelStock = s.fuelStock
      rw [reverseTransaction_fuelStock, htf.1, htf.2.1, htf.2.2.1]
      exact stock_sub_add_cancel s.fuelStock v.fuelType v.quantity
    · intro c2 hc2
      unfold balanceOf
      dsimp only
      rw [reverseTransaction_customers, htf.1, htf.2.2.2]
      have hcust : (addTransaction (saleStockUpdated s v)
          (saleDraft v (v.quantity * s.fuelPrices.get v.fuelType) none)).customers =
          s.customers := rfl
      by_cases hcr2 : t.isCredit = true
      · rw [if_pos ⟨rfl, hcr2⟩]
        rw [hcust]
      · rw [if_neg (fun hand => hcr2 hand.2), if_neg (by simp)]
        rw [hcust]

/-- Claim C2: deleting a transaction immediately after the operation that
created it restores the fuel stock and the balance recorded for every
customer that existed before the operation, for all four transaction types:
sales (cash and credit, including the implicit creation of a new credit
customer), expenses, stock additions, and repayments.  The id bounds mirror
the global uniqueness of the uuids the source generates. -/
theorem claim2_delete_is_inverse (s : AppState)
    (hcb : ∀ c ∈ s.customers, c.id < s.nextId)
    (hcn : (s.customers.map Customer.id).Nodup) :
    (∀ v s2 t, onSaleSubmit s v = Except.ok s2 → s2.transactions.head? = some t →
      RestoresCoreState s (deleteTransaction s2 t.id)) ∧
    (∀ d a t, (onExpenseSubmit s d a).transactions.head? = some t →
      RestoresCoreState s (deleteTransaction (onExpenseSubmit s d a) t.id)) ∧
    (∀ f q t, (addStock s f q).transactions.head? = some t →
      RestoresCoreState s (deleteTransaction (addStock s f q) t.id)) ∧
    (∀ cid a c t, s.customers.find? (fun x => x.id == cid) = some c →
      (recordRepayment s cid a).transactions.head? = some t →
      RestoresCoreState s (deleteTransaction (recordRepayment s cid a) t.id)) := by
  refine ⟨fun v s2 t hok ht => restores_sale s v s2 t hcb hcn hok ht,
    fun d a t ht => ?_, fun f q t ht => ?_, fun cid a c t hf ht => ?_⟩
  · unfold onExpenseSubmit at ht
    rw [addTransaction_transactions, List.head?_cons] at ht
    injection ht with ht2
    have hid : t.id = s.nextId := by rw [← ht2]
    rw [hid]
    exact restores_expense s d a
  · unfold addStock at ht
    rw [addTransaction_transactions, List.head?_cons] at ht
    injection ht with ht2
    have hid : t.id = s.nextId := by rw [← ht2]
    rw [hid]
    exact restores_addStock s f q
  · rw [recordRepayment_found s cid a c hf] at ht
    rw [addTransaction_transactions, List.head?_cons] at ht
    injection ht with ht2
    have hid : t.id = s.nextId := by rw [← ht2]
    rw [hid]
    exact restores_repayment s cid a c hf

theorem claim2_witness :
    RestoresCoreState exAliState
      (deleteTransaction (onExpenseSubmit exAliState "Staff salary" 500) 1) := by
  have h := claim2_delete_is_inverse exAliState (by decide) (by decide)
  exact h.2.1 "Staff salary" 500 _ rfl

theorem claim10_witness :
    ∃ s2, onSaleSubmit exAliState
        { fuelType := FuelType.petrol, quantity := 50, isCredit := false,
          customerName := some "" } = Except.ok s2 ∧
      s2.fuelStock.get FuelType.petrol = 0 :=
  claim10_sale_of_exact_stock exAliState
    { fuelType := FuelType.petrol, quantity := 50, isCredit := false,
      customerName := some "" } rfl

theorem logStockDelta_cons (f : FuelType) (t : Transaction) (ts : List Transaction) :
    logStockDelta f (t :: ts) = txStockDelta f t + logStockDelta f ts := rfl

theorem logStockDelta_addTransaction (f : FuelType) (smid : AppState) (d : TxDraft) :
    logStockDelta f (addTransaction smid d).transactions =
      txDraftStockDelta f d + logStockDelta f smid.transactions := rfl

theorem txIdsOk_addTr (s smid : AppState) (d : TxDraft) (h : TxIdsOk s)
    (htx : smid.transactions = s.transactions) (hn : s.nextId ≤ smid.nextId) :
    TxIdsOk (addTransaction smid d) := by
  obtain ⟨hb, hnd⟩ := h
  constructor
  · intro x hx
    rw [addTransaction_transactions, htx] at hx
    rw [addTransaction_nextId]
    rcases List.mem_cons.mp hx with rfl | hx
    · exact Nat.lt_succ_self _
    · exact Nat.lt_succ_of_lt (lt_of_lt_of_le (hb x hx) hn)
  · rw [addTransaction_transactions, htx, List.map_cons, List.nodup_cons]
    refine ⟨?_, hnd⟩
    intro hmem
    rcases List.mem_map.mp hmem with ⟨x, hxm, hxid⟩
    have hlt := lt_of_lt_of_le (hb x hxm) hn
    rw [hxid] at hlt
    exact Nat.lt_irrefl _ hlt

theorem txIdsOk_addTransaction (s : AppState) (d : TxDraft) (h : TxIdsOk s) :
    TxIdsOk (addTransaction s d) :=
  txIdsOk_addTr s s d h rfl (Nat.le_refl _)

theorem txIdsOk_sale (s : AppState) (v : SaleValues) (s2 : AppState) (h : TxIdsOk s)
    (hok : onSaleSubmit s v = Except.ok s2) : TxIdsOk s2 := by
  have hstock : ¬ s.fuelStock.get v.fuelType < v.quantity := by
    intro hlt
    rw [onSaleSubmit_insufficient s v hlt] at hok
    exact Except.noConfusion hok
  by_cases hg : (v.isCredit && strTruthy v.customerName) = true
  · rcases (show v.isCredit = true ∧ strTruthy v.customerName = true by simpa using hg)
      with ⟨hcr, hstr⟩
    obtain ⟨n, hvn, hne⟩ := strTruthy_some_ne v.customerName hstr
    cases hfind : s.customers.find? (fun x => strLower x.name == strLower n) with
    | some c =>
      rw [onSaleSubmit_credit_found s v n c hstock hcr hvn hne hfind] at hok
      cases hok
      exact txIdsOk_addTr s _ _ h rfl (Nat.le_refl _)
    | none =>
      rw [onSaleSubmit_credit_new s v n hstock hcr hvn hne hfind] at hok
      cases hok
      exact txIdsOk_addTr s _ _ h rfl (Nat.le_succ _)
  · rw [onSaleSubmit_cash s v hstock (Bool.eq_false_iff.mpr hg)] at hok
    cases hok
    exact txIdsOk_addTr s _ _ h rfl (Nat.le_refl _)

theorem txIdsOk_delete (s : AppState) (i : Nat) (h : TxIdsOk s) :
    TxIdsOk (deleteTransaction s i) := by
  cases hfd : s.transactions.find? (fun x => x.id == i) with
  | none => rw [deleteTransaction_not_found s i hfd]; exact h
  | some t0 =>
    rw [deleteTransaction_found s i t0 hfd]
    obtain ⟨hb, hnd⟩ := h
    constructor
    · intro x hx
      replace hx : x ∈ s.transactions.filter (fun x => !(x.id == i)) := hx
      have hx2 := List.mem_of_mem_filter hx
      show x.id < (reverseTransaction s t0).nextId
      rw [reverseTransaction_nextId]
      exact hb x hx2
    · show ((s.transactions.filter (fun x => !(x.id == i))).map Transaction.id).Nodup
      exact hnd.sublist ((List.filter_sublist _).map Transaction.id)

theorem reverse_stock_measure (s : AppState) (t0 : Transaction) (f : FuelType) :
    (reverseTransaction s t0).fuelStock.get f = s.fuelStock.get f - txStockDelta f t0 := by
  rw [reverseTransaction_fuelStock]
  obtain ⟨tid, ty, ft, q, am, cr, cid, cn, dsc, tst⟩ := t0
  cases ty <;> rcases ft with _ | g <;> rcases q with _ | q <;>
      simp only [txStockDelta, sub_zero] <;> try rfl
  · by_cases hq : q = 0
    · subst hq
      simp
    · rw [if_neg hq]
      by_cases hgf : g = f
      · subst hgf
        rw [FuelMap.get_set_self, if_pos rfl]
        ring
      · rw [FuelMap.get_set_ne _ _ _ _ hgf, if_neg hgf, sub_zero]
  · by_cases hq : q = 0
    · subst hq
      simp
    · rw [if_neg hq]
      by_cases hgf : g = f
      · subst hgf
        rw [FuelMap.get_set_self, if_pos rfl]
      · rw [FuelMap.get_set_ne _ _ _ _ hgf, if_neg hgf, sub_zero]

theorem measure_sale_branch (s smid : AppState) (v : SaleValues) (amt : ℚ)
    (cido : Option Nat) (f : FuelType)
    (hfs : smid.fuelStock = s.fuelStock.set v.fuelType (s.fuelStock.get v.fuelType - v.quantity))
    (htx : smid.transactions = s.transactions) :
    (addTransaction smid (saleDraft v amt cido)).fuelStock.get f -
      logStockDelta f (addTransaction smid (saleDraft v amt cido)).transactions =
      s.fuelStock.get f - logStockDelta f s.transactions := by
  rw [show (addTransaction smid (saleDraft v amt cido)).fuelStock = smid.fuelStock from rfl,
    hfs, logStockDelta_addTransaction, htx]
  by_cases hgf : v.fuelType = f
  · subst hgf
    rw [FuelMap.get_set_self,
      show txDraftStockDelta v.fuelType (saleDraft v amt cido) = -v.quantity from by
        simp [txDraftStockDelta, saleDraft]]
    ring
  · rw [FuelMap.get_set_ne _ _ _ _ hgf,
      show txDraftStockDelta f (saleDraft v amt cido) = 0 from by
        simp [txDraftStockDelta, saleDraft, hgf]]
    ring

theorem measure_sale (s : AppState) (v : SaleValues) (s2 : AppState) (f : FuelType)
    (hok : onSaleSubmit s v = Except.ok s2) :
    s2.fuelStock.get f - logStockDelta f s2.transactions =
      s.fuelStock.get f - logStockDelta f s.transactions := by
  have hstock : ¬ s.fuelStock.get v.fuelType < v.quantity := by
    intro hlt
    rw [onSaleSubmit_insufficient s v hlt] at hok
    exact Except.noConfusion hok
  by_cases hg : (v.isCredit && strTruthy v.customerName) = true
  · rcases (show v.isCredit = true ∧ strTruthy v.customerName = true by simpa using hg)
      with ⟨hcr, hstr⟩
    obtain ⟨n, hvn, hne⟩ := strTruthy_some_ne v.customerName hstr
    cases hfind : s.customers.find? (fun x => strLower x.name == strLower n) with
    | some c =>
      rw [onSaleSubmit_credit_found s v n c hstock hcr hvn hne hfind] at hok
      cases hok
      exact measure_sale_branch s _ v _ _ f rfl rfl
    | none =>
      rw [onSaleSubmit_credit_new s v n hstock hcr hvn hne hfind] at hok
      cases hok
      exact measure_sale_branch s _ v _ _ f rfl rfl
  · rw [onSaleSubmit_cash s v hstock (Bool.eq_false_iff.mpr hg)] at hok
    cases hok
    exact measure_sale_branch s _ v _ _ f rfl rfl

theorem measure_addStock (s : AppState) (f0 : FuelType) (q : ℚ) (f : FuelType) :
    (addStock s f0 q).fuelStock.get f - logStockDelta f (addStock s f0 q).transactions =
      s.fuelStock.get f - logStockDelta f s.transactions := by
  unfold addStock
  dsimp only
  rw [logStockDelta_addTransaction,
    show (addTransaction { s with
        fuelStock := s.fuelStock.set f0 (s.fuelStock.get f0 + q) } _).fuelStock =
      s.fuelStock.set f0 (s.fuelStock.get f0 + q) from rfl]
  have hq0 : ∀ dsc : Option String, txDraftStockDelta f
      { type := TxType.stock, fuelType := some f0, quantity := some q, amount := 0,
        isCredit := false, customerId := none, customerName := none,
        description := dsc } = if f0 = f then q else 0 := by
    intro dsc
    simp [txDraftStockDelta]
  rw [hq0]
  by_cases hgf : f0 = f
  · subst hgf
    rw [FuelMap.get_set_self, if_pos rfl]
    ring
  · rw [FuelMap.get_set_ne _ _ _ _ hgf, if_neg hgf]
    ring

theorem measure_updateStock (s : AppState) (p d : ℚ) (f : FuelType) :
    (updateStock s p d).fuelStock.get f - logStockDelta f (updateStock s p d).transactions =
      s.fuelStock.get f - logStockDelta f s.transactions := by
  unfold updateStock
  dsimp only
  by_cases hp : p ≠ s.fuelStock.petrol <;> by_cases hd : d ≠ s.fuelStock.diesel
  · rw [if_pos hp, if_pos hd]
    cases f <;>
      simp [addTransaction, logStockDelta_cons, txStockDelta, FuelMap.get] <;> ring
  · rw [if_pos hp, if_neg hd]
    push_neg at hd
    cases f <;>
      simp [addTransaction, logStockDelta_cons, txStockDelta, FuelMap.get, hd] <;> ring
  · rw [if_neg hp, if_pos hd]
    push_neg at hp
    cases f <;>
      simp [addTransaction, logStockDelta_cons, txStockDelta, FuelMap.get, hp] <;> ring
  · rw [if_neg hp, if_neg hd]
    push_neg at hp
    push_neg at hd
    cases f <;> simp [FuelMap.get, hp, hd]

theorem measure_delete (s : AppState) (i : Nat) (f : FuelType) (h : TxIdsOk s) :
    (deleteTransaction s i).fuelStock.get f -
      logStockDelta f (deleteTransaction s i).transactions =
      s.fuelStock.get f - logStockDelta f s.transactions := by
  cases hfd : s.transactions.find? (fun x => x.id == i) with
  | none => rw [deleteTransaction_not_found s i hfd]
  | some t0 =>
    rw [deleteTransaction_found s i t0 hfd]
    show (reverseTransaction s t0).fuelStock.get f -
      logStockDelta f (s.transactions.filter (fun x => !(x.id == i))) = _
    rw [reverse_stock_measure]
    unfold logStockDelta
    rw [wsum_filter_not_id (txStockDelta f) s.transactions i t0 h.2 hfd]
    ring

theorem stockOp_preserves (s : AppState) (op : StockOp) (f : FuelType) (h : TxIdsOk s) :
    TxIdsOk (applyStockOp s op) ∧
    ((applyStockOp s op).fuelStock.get f - logStockDelta f (applyStockOp s op).transactions =
      s.fuelStock.get f - logStockDelta f s.transactions) := by
  cases op with
  | sale v =>
    have hgoal : applyStockOp s (StockOp.sale v) = (match onSaleSubmit s v with
        | Except.ok s2 => s2
        | Except.error _ => s) := rfl
    rw [hgoal]
    cases hok : onSaleSubmit s v with
    | error e => exact ⟨h, rfl⟩
    | ok s2 => exact ⟨txIdsOk_sale s v s2 h hok, measure_sale s v s2 f hok⟩
  | add f0 q =>
    refine ⟨?_, measure_addStock s f0 q f⟩
    exact txIdsOk_addTransaction _ _ h
  | setAbsolute p d =>
    refine ⟨?_, measure_updateStock s p d f⟩
    show TxIdsOk (updateStock s p d)
    unfold updateStock
    dsimp only
    by_cases hp : p ≠ s.fuelStock.petrol <;> by_cases hd : d ≠ s.fuelStock.diesel
    · rw [if_pos hp, if_pos hd]
      exact txIdsOk_addTransaction _ _ (txIdsOk_addTransaction _ _ h)
    · rw [if_pos hp, if_neg hd]
      exact txIdsOk_addTransaction _ _ h
    · rw [if_neg hp, if_pos hd]
      exact txIdsOk_addTransaction _ _ h
    · rw [if_neg hp, if_neg hd]
      exact h
  | del i => exact ⟨txIdsOk_delete s i h, measure_delete s i f h⟩

/-- Counterexample to claim C3 as stated: from an initial state whose log
already holds a stock entry of +5 litres of petrol (stock 100), deleting
that entry reverses it to 95, while initial stock plus the deltas of the
entries still present (none) is 100. -/
theorem claim3_counterexample_nonempty_log :
    (applyStockOps exLogState [StockOp.del 0]).fuelStock.get FuelType.petrol = 95 ∧
    exLogState.fuelStock.get FuelType.petrol +
      logStockDelta FuelType.petrol
        (applyStockOps exLogState [StockOp.del 0]).transactions = 100 ∧
    ¬ ((applyStockOps exLogState [StockOp.del 0]).fuelStock.get FuelType.petrol =
      exLogState.fuelStock.get FuelType.petrol +
        logStockDelta FuelType.petrol
          (applyStockOps exLogState [StockOp.del 0]).transactions) := by
  have h1 : (applyStockOps exLogState [StockOp.del 0]).fuelStock.get FuelType.petrol = 95 := by
    norm_num [applyStockOps, applyStockOp, deleteTransaction, reverseTransaction,
      exLogState, exLogTx, List.find?, List.filter, FuelMap.get, FuelMap.set]
  have h2 : exLogState.fuelStock.get FuelType.petrol +
      logStockDelta FuelType.petrol
        (applyStockOps exLogState [StockOp.del 0]).transactions = 100 := by
    norm_num [applyStockOps, applyStockOp, deleteTransaction, reverseTransaction,
      exLogState, exLogTx, List.find?, List.filter, FuelMap.get, FuelMap.set, logStockDelta]
  refine ⟨h1, h2, ?_⟩
  rw [h1, h2]
  norm_num

/-- Amended claim C3: over any sequence of recordSale, addStock,
setStockAbsolute and deleteTransaction operations from a state with
well-formed transaction ids, each fuel type's final stock equals its initial
stock plus the net change in the signed deltas of the log, that is, the sum
of the deltas of the entries present at the end minus the sum of those
present at the start (zero for an empty initial log — the claim as stated). -/
theorem claim3_stock_conservation (s : AppState) (ops : List StockOp) (f : FuelType)
    (h : TxIdsOk s) :
    (applyStockOps s ops).fuelStock.get f =
      s.fuelStock.get f + (logStockDelta f (applyStockOps s ops).transactions -
        logStockDelta f s.transactions) := by
  suffices hkey : ∀ (ops : List StockOp) (s : AppState), TxIdsOk s →
      TxIdsOk (applyStockOps s ops) ∧
      ((applyStockOps s ops).fuelStock.get f - logStockDelta f (applyStockOps s ops).transactions =
        s.fuelStock.get f - logStockDelta f s.transactions) by
    have h2 := (hkey ops s h).2
    linarith
  intro ops
  induction ops with
  | nil => intro s hs; exact ⟨hs, rfl⟩
  | cons op ops ih =>
    intro s hs
    have hstep := stockOp_preserves s op f hs
    have hrest := ih (applyStockOp s op) hstep.1
    refine ⟨hrest.1, ?_⟩
    rw [show applyStockOps s (op :: ops) = applyStockOps (applyStockOp s op) ops from rfl,
      hrest.2, hstep.2]

theorem claim3_witness :
    (applyStockOps exLogState [StockOp.del 0]).fuelStock.get FuelType.petrol =
      exLogState.fuelStock.get FuelType.petrol +
        (logStockDelta FuelType.petrol (applyStockOps exLogState [StockOp.del 0]).transactions -
          logStockDelta FuelType.petrol exLogState.transactions) :=
  claim3_stock_conservation exLogState [StockOp.del 0] FuelType.petrol ⟨by decide, by decide⟩

theorem wsum_map_congr (ts : List Transaction) (g : Transaction → Transaction)
    (w : Transaction → ℚ) (h : ∀ t ∈ ts, w (g t) = w t) :
    ((ts.map g).map w).sum = (ts.map w).sum := by
  rw [List.map_map]
  exact congrArg List.sum (List.map_congr_left h)

theorem creditSaleTotal_cons (t : Transaction) (ts : List Transaction) (cid : Nat) :
    creditSaleTotal (t :: ts) cid = creditContribution cid t + creditSaleTotal ts cid := by
  simp [creditSaleTotal]

theorem repaymentTotal_cons (t : Transaction) (ts : List Transaction) (cid : Nat) :
    repaymentTotal (t :: ts) cid = repayContribution cid t + repaymentTotal ts cid := by
  simp [repaymentTotal]

theorem creditSaleTotal_map (ts : List Transaction) (g : Transaction → Transaction) (cid : Nat)
    (h : ∀ t ∈ ts, creditContribution cid (g t) = creditContribution cid t) :
    creditSaleTotal (ts.map g) cid = creditSaleTotal ts cid :=
  wsum_map_congr ts g (creditContribution cid) h

theorem repaymentTotal_map (ts : List Transaction) (g : Transaction → Transaction) (cid : Nat)
    (h : ∀ t ∈ ts, repayContribution cid (g t) = repayContribution cid t) :
    repaymentTotal (ts.map g) cid = repaymentTotal ts cid :=
  wsum_map_congr ts g (repayContribution cid) h

theorem creditSaleTotal_zero (ts : List Transaction) (cid : Nat)
    (h : ∀ t ∈ ts, t.customerId ≠ some cid) : creditSaleTotal ts cid = 0 := by
  apply List.sum_eq_zero
  intro x hx
  rcases List.mem_map.mp hx with ⟨t, ht, rfl⟩
  unfold creditContribution
  rw [if_neg]
  intro hand
  exact h t ht hand.2.2

theorem repaymentTotal_zero (ts : List Transaction) (cid : Nat)
    (h : ∀ t ∈ ts, t.customerId ≠ some cid) : repaymentTotal ts cid = 0 := by
  apply List.sum_eq_zero
  intro x hx
  rcases List.mem_map.mp hx with ⟨t, ht, rfl⟩
  unfold repayContribution
  rw [if_neg]
  intro hand
  exact h t ht hand.2

theorem creditContribution_zero_of_type (cid : Nat) (t : Transaction)
    (h : t.type ≠ TxType.sale) : creditContribution cid t = 0 := by
  unfold creditContribution
  rw [if_neg]
  intro hand
  exact h hand.1

theorem repayContribution_zero_of_type (cid : Nat) (t : Transaction)
    (h : t.type ≠ TxType.repayment) : repayContribution cid t = 0 := by
  unfold repayContribution
  rw [if_neg]
  intro hand
  exact h hand.1

theorem creditContribution_zero_of_cid (cid : Nat) (t : Transaction)
    (h : t.customerId ≠ some cid) : creditContribution cid t = 0 := by
  unfold creditContribution
  rw [if_neg]
  intro hand
  exact h hand.2.2

theorem repayContribution_zero_of_cid (cid : Nat) (t : Transaction)
    (h : t.customerId ≠ some cid) : repayContribution cid t = 0 := by
  unfold repayContribution
  rw [if_neg]
  intro hand
  exact h hand.2

theorem map_id_eq (ts : List Transaction) (g : Transaction → Transaction)
    (h : ∀ t ∈ ts, (g t).id = t.id) :
    (ts.map g).map Transaction.id = ts.map Transaction.id := by
  rw [List.map_map]
  exact List.map_congr_left h

theorem customers_map_id (cs : List Customer) (g : Customer → Customer)
    (h : ∀ c, (g c).id = c.id) :
    (cs.map g).map Customer.id = cs.map Customer.id := by
  rw [List.map_map]
  exact List.map_congr_left (fun c _ => h c)

theorem reverse_customers_map_id (s : AppState) (t0 : Transaction) :
    (reverseTransaction s t0).customers.map Customer.id = s.customers.map Customer.id := by
  rw [reverseTransaction_customers]
  split
  · cases t0.customerId with
    | none => rfl
    | some cid =>
      apply customers_map_id
      intro c
      by_cases hx : c.id = cid
      · simp [hx]
      · simp [hx]
  · split
    · cases t0.customerId with
      | none => rfl
      | some cid =>
        apply customers_map_id
        intro c
        by_cases hx : c.id = cid
        · simp [hx]
        · simp [hx]
    · rfl

theorem idsFresh_addTr (s smid : AppState) (d : TxDraft) (h : IdsFresh s)
    (htx : smid.transactions = s.transactions) (hn : s.nextId ≤ smid.nextId)
    (hcust : ∀ c ∈ smid.customers, c.id < smid.nextId)
    (hdcid : ∀ cid, d.customerId = some cid → cid < smid.nextId) :
    IdsFresh (addTransaction smid d) := by
  obtain ⟨hc, hb, hcid, hnd⟩ := h
  refine ⟨?_, ?_, ?_, ?_⟩
  · intro c hcm
    rw [addTransaction_customers] at hcm
    exact Nat.lt_succ_of_lt (hcust c hcm)
  · intro t htm
    rw [addTransaction_transactions, htx] at htm
    rw [addTransaction_nextId]
    rcases List.mem_cons.mp htm with rfl | htm
    · exact Nat.lt_succ_self _
    · exact Nat.lt_succ_of_lt (lt_of_lt_of_le (hb t htm) hn)
  · intro t htm cid hcid2
    rw [addTransaction_transactions, htx] at htm
    rw [addTransaction_nextId]
    rcases List.mem_cons.mp htm with rfl | htm
    · exact Nat.lt_succ_of_lt (hdcid cid hcid2)
    · exact Nat.lt_succ_of_lt (lt_of_lt_of_le (hcid t htm cid hcid2) hn)
  · rw [addTransaction_transactions, htx, List.map_cons, List.nodup_cons]
    refine ⟨?_, hnd⟩
    intro hmem
    rcases List.mem_map.mp hmem with ⟨x, hxm, hxid⟩
    have hlt := lt_of_lt_of_le (hb x hxm) hn
    rw [hxid] at hlt
    exact Nat.lt_irrefl _ hlt

theorem addTransaction_transactions_draftTx (smid : AppState) (d : TxDraft) :
    (addTransaction smid d).transactions = draftTx smid d :: smid.transactions := rfl

theorem customers_map_update_lt (cs : List Customer) (n0 : Nat) (g : Customer → Customer)
    (hgid : ∀ x, (g x).id = x.id) (h : ∀ c ∈ cs, c.id < n0) :
    ∀ c ∈ cs.map g, c.id < n0 := by
  intro c hcm
  rcases List.mem_map.mp hcm with ⟨x, hxm, rfl⟩
  rw [hgid x]
  exact h x hxm

theorem stateOk_addTr_simple (s : AppState) (d : TxDraft) (h : StateOk s)
    (hty : d.type ≠ TxType.sale ∧ d.type ≠ TxType.repayment) (hdc : d.customerId = none) :
    StateOk (addTransaction s d) := by
  obtain ⟨hf, hinv⟩ := h
  refine ⟨idsFresh_addTr s s d hf rfl (Nat.le_refl _) hf.1
      (fun cid hcid => Option.noConfusion (hdc ▸ hcid)), ?_⟩
  intro c hcm
  rw [addTransaction_customers] at hcm
  rw [addTransaction_transactions_draftTx, creditSaleTotal_cons, repaymentTotal_cons,
    creditContribution_zero_of_type c.id (draftTx s d) hty.1,
    repayContribution_zero_of_type c.id (draftTx s d) hty.2, zero_add, zero_add]
  exact hinv c hcm

theorem stateOk_updatePrices (s : AppState) (p d : ℚ) (h : StateOk s) :
    StateOk (updatePrices s p d) := h

theorem stateOk_rename (s : AppState) (cid : Nat) (n : String) (h : StateOk s) :
    StateOk (updateCustomerName s cid n) := by
  obtain ⟨⟨hc, hb, hcidb, hnd⟩, hinv⟩ := h
  have hgid : ∀ x : Customer,
      ((fun c => if c.id == cid then { c with name := n } else c) x).id = x.id := by
    intro x
    by_cases hx : x.id = cid
    · simp [hx]
    · simp [hx]
  have hgtid : ∀ t : Transaction,
      ((fun t => if t.customerId == some cid then { t with customerName := some n } else t)
        t).id = t.id := by
    intro t
    by_cases ht : t.customerId = some cid
    · simp [ht]
    · simp [ht]
  have hgtcid : ∀ t : Transaction,
      ((fun t => if t.customerId == some cid then { t with customerName := some n } else t)
        t).customerId = t.customerId := by
    intro t
    by_cases ht : t.customerId = some cid
    · simp [ht]
    · simp [ht]
  refine ⟨⟨?_, ?_, ?_, ?_⟩, ?_⟩
  · exact customers_map_update_lt s.customers s.nextId _ hgid hc
  · intro t htm
    rcases List.mem_map.mp htm with ⟨x, hxm, rfl⟩
    show _ < s.nextId
    rw [hgtid x]
    exact hb x hxm
  · intro t htm cid2 hcid2
    rcases List.mem_map.mp htm with ⟨x, hxm, rfl⟩
    rw [hgtcid x] at hcid2
    exact hcidb x hxm cid2 hcid2
  · show ((s.transactions.map _).map Transaction.id).Nodup
    rw [map_id_eq _ _ (fun t _ => hgtid t)]
    exact hnd
  · intro c hcm
    rcases List.mem_map.mp hcm with ⟨x, hxm, rfl⟩
    have hgb : ((fun c => if c.id == cid then { c with name := n } else c) x).balance =
        x.balance := by
      by_cases hx : x.id = cid
      · simp [hx]
      · simp [hx]
    rw [hgb, hgid x]
    dsimp only [updateCustomerName]
    rw [creditSaleTotal_map _ _ _ ?hcc, repaymentTotal_map _ _ _ ?hrc]
    case hcc =>
      intro t _
      by_cases ht : t.customerId = some cid
      · simp [creditContribution, ht]
      · simp [ht]
    case hrc =>
      intro t _
      by_cases ht : t.customerId = some cid
      · simp [repayContribution, ht]
      · simp [ht]
    exact hinv x hxm

theorem stateOk_delCustomer (s : AppState) (cid : Nat) (h : StateOk s) :
    StateOk (deleteCustomer s cid) := by
  obtain ⟨⟨hc, hb, hcidb, hnd⟩, hinv⟩ := h
  have hgtid : ∀ t : Transaction,
      ((fun t => if t.customerId == some cid then
        { t with customerId := none, customerName := none } else t) t).id = t.id := by
    intro t
    by_cases ht : t.customerId = some cid
    · simp [ht]
    · simp [ht]
  refine ⟨⟨?_, ?_, ?_, ?_⟩, ?_⟩
  · intro c hcm
    exact hc c (List.mem_of_mem_filter hcm)
  · intro t htm
    rcases List.mem_map.mp htm with ⟨x, hxm, rfl⟩
    show _ < s.nextId
    rw [hgtid x]
    exact hb x hxm
  · intro t htm cid2 hcid2
    rcases List.mem_map.mp htm with ⟨x, hxm, rfl⟩
    by_cases hx : x.customerId = some cid
    · rw [show ((fun t => if t.customerId == some cid then
          { t with customerId := none, customerName := none } else t) x).customerId = none
          from by simp [hx]] at hcid2
      exact Option.noConfusion hcid2
    · rw [show ((fun t => if t.customerId == some cid then
          { t with customerId := none, customerName := none } else t) x).customerId =
          x.customerId from by simp [hx]] at hcid2
      exact hcidb x hxm cid2 hcid2
  · show ((s.transactions.map _).map Transaction.id).Nodup
    rw [map_id_eq _ _ (fun t _ => hgtid t)]
    exact hnd
  · intro c hcm
    have hcm2 := List.mem_of_mem_filter hcm
    have hcne : c.id ≠ cid := by simpa using (List.mem_filter.mp hcm).2
    dsimp only [deleteCustomer]
    rw [creditSaleTotal_map _ _ _ ?hcc, repaymentTotal_map _ _ _ ?hrc]
    case hcc =>
      intro t _
      by_cases ht : t.customerId = some cid
      · rw [creditContribution_zero_of_cid _ _ (by simp [ht]),
          creditContribution_zero_of_cid _ _ (by
            rw [ht]
            intro hx
            exact hcne (Option.some_injective _ hx).symm)]
      · simp [ht]
    case hrc =>
      intro t _
      by_cases ht : t.customerId = some cid
      · rw [repayContribution_zero_of_cid _ _ (by simp [ht]),
          repayContribution_zero_of_cid _ _ (by
            rw [ht]
            intro hx
            exact hcne (Option.some_injective _ hx).symm)]
      · simp [ht]
    exact hinv c hcm2

theorem stateOk_editExpense (s : AppState) (i : Nat) (dsc : String) (a : ℚ)
    (h : StateOk s)
    (he : ∀ t ∈ s.transactions, t.id = i → t.type = TxType.expense) :
    StateOk (updateTransaction s i dsc a) := by
  obtain ⟨⟨hc, hb, hcidb, hnd⟩, hinv⟩ := h
  have hgtid : ∀ t : Transaction,
      ((fun t => if t.id == i then
        { t with description := some dsc, amount := a } else t) t).id = t.id := by
    intro t
    by_cases ht : t.id = i
    · simp [ht]
    · simp [ht]
  have hgtcid : ∀ t : Transaction,
      ((fun t => if t.id == i then
        { t with description := some dsc, amount := a } else t) t).customerId =
      t.customerId := by
    intro t
    by_cases ht : t.id = i
    · simp [ht]
    · simp [ht]
  refine ⟨⟨?_, ?_, ?_, ?_⟩, ?_⟩
  · exact hc
  · intro t htm
    rcases List.mem_map.mp htm with ⟨x, hxm, rfl⟩
    show _ < s.nextId
    rw [hgtid x]
    exact hb x hxm
  · intro t htm cid2 hcid2
    rcases List.mem_map.mp htm with ⟨x, hxm, rfl⟩
    rw [hgtcid x] at hcid2
    exact hcidb x hxm cid2 hcid2
  · show ((s.transactions.map _).map Transaction.id).Nodup
    rw [map_id_eq _ _ (fun t _ => hgtid t)]
    exact hnd
  · intro c hcm
    dsimp only [updateTransaction]
    rw [creditSaleTotal_map _ _ _ ?hcc, repaymentTotal_map _ _ _ ?hrc]
    case hcc =>
      intro t htm
      by_cases ht : t.id = i
      · have hexp := he t htm ht
        rw [creditContribution_zero_of_type _ _ (by simp [ht, hexp]),
          creditContribution_zero_of_type _ _ (by rw [hexp]; exact fun hx => TxType.noConfusion hx)]
      · simp [ht]
    case hrc =>
      intro t htm
      by_cases ht : t.id = i
      · have hexp := he t htm ht
        rw [repayContribution_zero_of_type _ _ (by simp [ht, hexp]),
          repayContribution_zero_of_type _ _ (by rw [hexp]; exact fun hx => TxType.noConfusion hx)]
      · simp [ht]
    exact hinv c hcm

theorem stateOk_repay (s : AppState) (cid : Nat) (a : ℚ) (h : StateOk s) :
    StateOk (recordRepayment s cid a) := by
  cases hf : s.customers.find? (fun c => c.id == cid) with
  | none => rw [recordRepayment_not_found s cid a hf]; exact h
  | some c =>
    have hcid : c.id = cid := by simpa using List.find?_some hf
    have hcmem : c ∈ s.customers := List.mem_of_find?_eq_some hf
    rw [recordRepayment_found s cid a c hf]
    obtain ⟨⟨hcb, hb, hcidb, hnd⟩, hinv⟩ := h
    have hgid : ∀ x : Customer,
        ((fun x => if x.id == cid then { c with balance := c.balance - a } else x) x).id =
          x.id := by
      intro x
      by_cases hx : x.id = cid
      · simp [hx, hcid]
      · simp [hx]
    refine ⟨idsFresh_addTr s _ _ ⟨hcb, hb, hcidb, hnd⟩ rfl (Nat.le_refl _)
      (customers_map_update_lt s.customers s.nextId _ hgid hcb) ?_, ?_⟩
    · intro cid2 hcid2
      injection hcid2 with hcid3
      rw [← hcid3, ← hcid]
      exact hcb c hcmem
    · intro c2 hcm
      rw [addTransaction_customers] at hcm
      rcases List.mem_map.mp hcm with ⟨y, hym, rfl⟩
      rw [addTransaction_transactions_draftTx, creditSaleTotal_cons, repaymentTotal_cons,
        creditContribution_zero_of_type _ _ (fun hx => TxType.noConfusion hx), zero_add]
      by_cases hy : y.id = cid
      · rw [if_pos (show (y.id == cid) = true by simp [hy])]
        have hdraft : repayContribution ({ c with balance := c.balance - a } : Customer).id
            (draftTx { s with customers := s.customers.map (fun x =>
              if x.id == cid then { c with balance := c.balance - a } else x) }
              { type := TxType.repayment, fuelType := none, quantity := none, amount := a,
                isCredit := false, customerId := some cid, customerName := some c.name,
                description := none }) = a := by
          unfold repayContribution draftTx
          rw [if_pos ⟨rfl, by rw [hcid]⟩]
        rw [hdraft]
        have := hinv c hcmem
        show c.balance - a = creditSaleTotal s.transactions c.id -
          (a + repaymentTotal s.transactions c.id)
        rw [this]
        ring
      · rw [if_neg (show ¬ (y.id == cid) = true by simp [hy])]
        have hdraft : repayContribution y.id
            (draftTx { s with customers := s.customers.map (fun x =>
              if x.id == cid then { c with balance := c.balance - a } else x) }
              { type := TxType.repayment, fuelType := none, quantity := none, amount := a,
                isCredit := false, customerId := some cid, customerName := some c.name,
                description := none }) = 0 := by
          apply repayContribution_zero_of_cid
          show some cid ≠ some y.id
          intro hx
          exact hy (Option.some_injective _ hx).symm
        rw [hdraft, zero_add]
        exact hinv y hym

theorem stateOk_sale (s : AppState) (v : SaleValues) (s2 : AppState) (h : StateOk s)
    (hok : onSaleSubmit s v = Except.ok s2) : StateOk s2 := by
  obtain ⟨⟨hcb, hb, hcidb, hnd⟩, hinv⟩ := h
  have hstock : ¬ s.fuelStock.get v.fuelType < v.quantity := by
    intro hlt
    rw [onSaleSubmit_insufficient s v hlt] at hok
    exact Except.noConfusion hok
  by_cases hg : (v.isCredit && strTruthy v.customerName) = true
  · rcases (show v.isCredit = true ∧ strTruthy v.customerName = true by simpa using hg)
      with ⟨hcr, hstr⟩
    obtain ⟨n, hvn, hne⟩ := strTruthy_some_ne v.customerName hstr
    cases hfind : s.customers.find? (fun x => strLower x.name == strLower n) with
    | some c =>
      rw [onSaleSubmit_credit_found s v n c hstock hcr hvn hne hfind] at hok
      cases hok
      have hcmem : c ∈ s.customers := List.mem_of_find?_eq_some hfind
      have hgid : ∀ x : Customer,
          ((fun x => if x.id == c.id then
            { c with balance := c.balance + v.quantity * s.fuelPrices.get v.fuelType }
          else x) x).id = x.id := by
        intro x
        by_cases hx : x.id = c.id
        · simp [hx]
        · simp [hx]
      refine ⟨idsFresh_addTr s _ _ ⟨hcb, hb, hcidb, hnd⟩ rfl (Nat.le_refl _)
        (customers_map_update_lt s.customers s.nextId _ hgid hcb) ?_, ?_⟩
      · intro cid2 hcid2
        injection hcid2 with hcid3
        rw [← hcid3]
        exact hcb c hcmem
      · intro c2 hcm
        rw [addTransaction_customers] at hcm
        rcases List.mem_map.mp hcm with ⟨y, hym, rfl⟩
        rw [addTransaction_transactions_draftTx, creditSaleTotal_cons, repaymentTotal_cons,
          repayContribution_zero_of_type _ _ (fun hx => TxType.noConfusion hx), zero_add]
        by_cases hy : y.id = c.id
        · rw [if_pos (show (y.id == c.id) = true by simp [hy])]
          have hdraft : creditContribution
              ({ c with balance := c.balance + v.quantity * s.fuelPrices.get v.fuelType } :
                Customer).id
              (draftTx { saleStockUpdated s v with customers := s.customers.map (fun x =>
                if x.id == c.id then
                  { c with balance := c.balance + v.quantity * s.fuelPrices.get v.fuelType }
                else x) }
                (saleDraft v (v.quantity * s.fuelPrices.get v.fuelType) (some c.id))) =
              v.quantity * s.fuelPrices.get v.fuelType := by
            unfold creditContribution draftTx saleDraft
            rw [if_pos ⟨rfl, hcr, rfl⟩]
          rw [hdraft]
          have := hinv c hcmem
          show c.balance + v.quantity * s.fuelPrices.get v.fuelType =
            (v.quantity * s.fuelPrices.get v.fuelType + creditSaleTotal s.transactions c.id) -
              repaymentTotal s.transactions c.id
          rw [this]
          ring
        · rw [if_neg (show ¬ (y.id == c.id) = true by simp [hy])]
          have hdraft : creditContribution y.id
              (draftTx { saleStockUpdated s v with customers := s.customers.map (fun x =>
                if x.id == c.id then
                  { c with balance := c.balance + v.quantity * s.fuelPrices.get v.fuelType }
                else x) }
                (saleDraft v (v.quantity * s.fuelPrices.get v.fuelType) (some c.id))) = 0 := by
            apply creditContribution_zero_of_cid
            show some c.id ≠ some y.id
            intro hx
            exact hy (Option.some_injective _ hx).symm
          rw [hdraft, zero_add]
          exact hinv y hym
    | none =>
      rw [onSaleSubmit_credit_new s v n hstock hcr hvn hne hfind] at hok
      cases hok
      refine ⟨idsFresh_addTr s _ _ ⟨hcb, hb, hcidb, hnd⟩ (by rfl) (Nat.le_succ _) ?_ ?_, ?_⟩
      · intro c2 hcm
        rcases List.mem_append.mp hcm with hcm | hcm
        · exact Nat.lt_succ_of_lt (hcb c2 hcm)
        · rcases List.mem_singleton.mp hcm with rfl
          exact Nat.lt_succ_self _
      · intro cid2 hcid2
        injection hcid2 with hcid3
        rw [← hcid3]
        exact Nat.lt_succ_self _
      · intro c2 hcm
        rw [addTransaction_customers] at hcm
        rw [addTransaction_transactions_draftTx, creditSaleTotal_cons, repaymentTotal_cons,
          repayContribution_zero_of_type _ _ (fun hx => TxType.noConfusion hx), zero_add]
        rcases List.mem_append.mp hcm with hcm2 | hcm2
        · have hcne : c2.id ≠ s.nextId := Nat.ne_of_lt (hcb c2 hcm2)
          have hdraft : creditContribution c2.id
              (draftTx { saleStockUpdated s v with
                customers := s.customers ++
                  [{ id := s.nextId, name := n,
                     balance := v.quantity * s.fuelPrices.get v.fuelType }],
                nextId := s.nextId + 1 }
                (saleDraft v (v.quantity * s.fuelPrices.get v.fuelType) (some s.nextId))) =
              0 := by
            apply creditContribution_zero_of_cid
            show some s.nextId ≠ some c2.id
            intro hx
            exact hcne (Option.some_injective _ hx).symm
          rw [hdraft, zero_add]
          exact hinv c2 hcm2
        · rcases List.mem_singleton.mp hcm2 with rfl
          have hzero1 : creditSaleTotal ({ saleStockUpdated s v with
              customers := s.customers ++
                [{ id := s.nextId, name := n,
                   balance := v.quantity * s.fuelPrices.get v.fuelType }],
              nextId := s.nextId + 1 } : AppState).transactions
              ({ id := s.nextId, name := n,
                 balance := v.quantity * s.fuelPrices.get v.fuelType } : Customer).id = 0 := by
            show creditSaleTotal s.transactions s.nextId = 0
            apply creditSaleTotal_zero
            intro t htm hx
            exact Nat.lt_irrefl _ (hcidb t htm s.nextId hx)
          have hzero2 : repaymentTotal ({ saleStockUpdated s v with
              customers := s.customers ++
                [{ id := s.nextId, name := n,
                   balance := v.quantity * s.fuelPrices.get v.fuelType }],
              nextId := s.nextId + 1 } : AppState).transactions
              ({ id := s.nextId, name := n,
                 balance := v.quantity * s.fuelPrices.get v.fuelType } : Customer).id = 0 := by
            show repaymentTotal s.transactions s.nextId = 0
            apply repaymentTotal_zero
            intro t htm hx
            exact Nat.lt_irrefl _ (hcidb t htm s.nextId hx)
          have hdraft : creditContribution
              ({ id := s.nextId, name := n,
                 balance := v.quantity * s.fuelPrices.get v.fuelType } : Customer).id
              (draftTx { saleStockUpdated s v with
                customers := s.customers ++
                  [{ id := s.nextId, name := n,
                     balance := v.quantity * s.fuelPrices.get v.fuelType }],
                nextId := s.nextId + 1 }
                (saleDraft v (v.quantity * s.fuelPrices.get v.fuelType) (some s.nextId))) =
              v.quantity * s.fuelPrices.get v.fuelType := by
            unfold creditContribution draftTx saleDraft
            rw [if_pos ⟨rfl, hcr, rfl⟩]
          rw [hdraft, hzero1, hzero2]
          show v.quantity * s.fuelPrices.get v.fuelType =
            v.quantity * s.fuelPrices.get v.fuelType + 0 - 0
          ring
  · rw [onSaleSubmit_cash s v hstock (Bool.eq_false_iff.mpr hg)] at hok
    cases hok
    refine ⟨idsFresh_addTr s _ _ ⟨hcb, hb, hcidb, hnd⟩ rfl (Nat.le_refl _) hcb
      (fun cid2 hcid2 => Option.noConfusion hcid2), ?_⟩
    intro c2 hcm
    rw [addTransaction_customers] at hcm
    rw [addTransaction_transactions_draftTx, creditSaleTotal_cons, repaymentTotal_cons,
      repayContribution_zero_of_type _ _ (fun hx => TxType.noConfusion hx),
      creditContribution_zero_of_cid _ _ (fun hx => Option.noConfusion hx), zero_add,
      zero_add]
    exact hinv c2 hcm

theorem stateOk_addStock (s : AppState) (f0 : FuelType) (q : ℚ) (h : StateOk s) :
    StateOk (addStock s f0 q) :=
  stateOk_addTr_simple _ _ h
    ⟨fun hx => TxType.noConfusion hx, fun hx => TxType.noConfusion hx⟩ rfl

theorem stateOk_setAbsolute (s : AppState) (p d : ℚ) (h : StateOk s) :
    StateOk (updateStock s p d) := by
  unfold updateStock
  dsimp only
  by_cases hp : p ≠ s.fuelStock.petrol <;> by_cases hd : d ≠ s.fuelStock.diesel
  · rw [if_pos hp, if_pos hd]
    exact stateOk_addTr_simple _ _ (stateOk_addTr_simple _ _ h
      ⟨fun hx => TxType.noConfusion hx, fun hx => TxType.noConfusion hx⟩ rfl)
      ⟨fun hx => TxType.noConfusion hx, fun hx => TxType.noConfusion hx⟩ rfl
  · rw [if_pos hp, if_neg hd]
    exact stateOk_addTr_simple _ _ h
      ⟨fun hx => TxType.noConfusion hx, fun hx => TxType.noConfusion hx⟩ rfl
  · rw [if_neg hp, if_pos hd]
    exact stateOk_addTr_simple _ _ h
      ⟨fun hx => TxType.noConfusion hx, fun hx => TxType.noConfusion hx⟩ rfl
  · rw [if_neg hp, if_neg hd]
    exact h

theorem stateOk_expense (s : AppState) (dsc : String) (a : ℚ) (h : StateOk s) :
    StateOk (onExpenseSubmit s dsc a) :=
  stateOk_addTr_simple _ _ h
    ⟨fun hx => TxType.noConfusion hx, fun hx => TxType.noConfusion hx⟩ rfl

theorem stateOk_delTx (s : AppState) (i : Nat) (h : StateOk s) :
    StateOk (deleteTransaction s i) := by
  cases hfd : s.transactions.find? (fun x => x.id == i) with
  | none => rw [deleteTransaction_not_found s i hfd]; exact h
  | some t0 =>
    rw [deleteTransaction_found s i t0 hfd]
    obtain ⟨⟨hcb, hb, hcidb, hnd⟩, hinv⟩ := h
    constructor
    · refine ⟨?_, ?_, ?_, ?_⟩
      · intro c hcm
        replace hcm : c ∈ (reverseTransaction s t0).customers := hcm
        have hmm : c.id ∈ (reverseTransaction s t0).customers.map Customer.id :=
          List.mem_map_of_mem _ hcm
        rw [reverse_customers_map_id] at hmm
        rcases List.mem_map.mp hmm with ⟨c0, hc0m, hc0id⟩
        show c.id < (reverseTransaction s t0).nextId
        rw [reverseTransaction_nextId, ← hc0id]
        exact hcb c0 hc0m
      · intro t htm
        replace htm : t ∈ s.transactions.filter (fun x => !(x.id == i)) := htm
        show t.id < (reverseTransaction s t0).nextId
        rw [reverseTransaction_nextId]
        exact hb t (List.mem_of_mem_filter htm)
      · intro t htm cid2 hcid2
        replace htm : t ∈ s.transactions.filter (fun x => !(x.id == i)) := htm
        show cid2 < (reverseTransaction s t0).nextId
        rw [reverseTransaction_nextId]
        exact hcidb t (List.mem_of_mem_filter htm) cid2 hcid2
      · show ((s.transactions.filter (fun x => !(x.id == i))).map Transaction.id).Nodup
        exact hnd.sublist ((List.filter_sublist _).map Transaction.id)
    · intro c hcm
      replace hcm : c ∈ (reverseTransaction s t0).customers := hcm
      show c.balance = creditSaleTotal (s.transactions.filter (fun x => !(x.id == i))) c.id -
        repaymentTotal (s.transactions.filter (fun x => !(x.id == i))) c.id
      have hcredit : creditSaleTotal (s.transactions.filter (fun x => !(x.id == i))) c.id =
          creditSaleTotal s.transactions c.id - creditContribution c.id t0 :=
        wsum_filter_not_id (creditContribution c.id) s.transactions i t0 hnd hfd
      have hrepay : repaymentTotal (s.transactions.filter (fun x => !(x.id == i))) c.id =
          repaymentTotal s.transactions c.id - repayContribution c.id t0 :=
        wsum_filter_not_id (repayContribution c.id) s.transactions i t0 hnd hfd
      rw [hcredit, hrepay]
      rw [reverseTransaction_customers] at hcm
      by_cases hsale : t0.type = TxType.sale ∧ t0.isCredit = true
      · rw [if_pos hsale] at hcm
        cases hcid0 : t0.customerId with
        | none =>
          rw [hcid0] at hcm
          dsimp only at hcm
          rw [creditContribution_zero_of_cid _ _
              (by rw [hcid0]; exact fun hx => Option.noConfusion hx),
            repayContribution_zero_of_type _ _
              (by rw [hsale.1]; exact fun hx => TxType.noConfusion hx)]
          rw [hinv c hcm]
          ring
        | some cid0 =>
          rw [hcid0] at hcm
          dsimp only at hcm
          rcases List.mem_map.mp hcm with ⟨y, hym, rfl⟩
          rw [repayContribution_zero_of_type _ _
            (by rw [hsale.1]; exact fun hx => TxType.noConfusion hx)]
          by_cases hy : y.id = cid0
          · rw [if_pos (show (y.id == cid0) = true by simp [hy])]
            have hcc : creditContribution
                ({ y with balance := y.balance - t0.amount } : Customer).id t0 = t0.amount := by
              unfold creditContribution
              rw [if_pos ⟨hsale.1, hsale.2, by rw [hcid0, hy]⟩]
            rw [hcc]
            have hbase := hinv y hym
            show y.balance - t0.amount =
              creditSaleTotal s.transactions y.id - t0.amount -
                (repaymentTotal s.transactions y.id - 0)
            rw [hbase]
            ring
          · rw [if_neg (show ¬ (y.id == cid0) = true by simp [hy])]
            have hcc : creditContribution y.id t0 = 0 := by
              apply creditContribution_zero_of_cid
              rw [hcid0]
              intro hx
              exact hy (Option.some_injective _ hx).symm
            rw [hcc]
            rw [hinv y hym]
            ring
      · rw [if_neg hsale] at hcm
        by_cases hrep : t0.type = TxType.repayment
        · rw [if_pos hrep] at hcm
          cases hcid0 : t0.customerId with
          | none =>
            rw [hcid0] at hcm
            dsimp only at hcm
            rw [creditContribution_zero_of_cid _ _
                (by rw [hcid0]; exact fun hx => Option.noConfusion hx),
              repayContribution_zero_of_cid _ _
                (by rw [hcid0]; exact fun hx => Option.noConfusion hx)]
            rw [hinv c hcm]
            ring
          | some cid0 =>
            rw [hcid0] at hcm
            dsimp only at hcm
            rcases List.mem_map.mp hcm with ⟨y, hym, rfl⟩
            by_cases hy : y.id = cid0
            · rw [if_pos (show (y.id == cid0) = true by simp [hy])]
              have hrc : repayContribution
                  ({ y with balance := y.balance + t0.amount } : Customer).id t0 =
                  t0.amount := by
                unfold repayContribution
                rw [if_pos ⟨hrep, by rw [hcid0, hy]⟩]
              rw [hrc, creditContribution_zero_of_type _ _
                (by rw [hrep]; exact fun hx => TxType.noConfusion hx)]
              have hbase := hinv y hym
              show y.balance + t0.amount =
                creditSaleTotal s.transactions y.id - 0 -
                  (repaymentTotal s.transactions y.id - t0.amount)
              rw [hbase]
              ring
            · rw [if_neg (show ¬ (y.id == cid0) = true by simp [hy])]
              have hrc : repayContribution y.id t0 = 0 := by
                apply repayContribution_zero_of_cid
                rw [hcid0]
                intro hx
                exact hy (Option.some_injective _ hx).symm
              rw [hrc, creditContribution_zero_of_type _ _
                (by rw [hrep]; exact fun hx => TxType.noConfusion hx)]
              rw [hinv y hym]
              ring
        · rw [if_neg hrep] at hcm
          have hcc : creditContribution c.id t0 = 0 := by
            unfold creditContribution
            rw [if_neg]
            intro hand
            exact hsale ⟨hand.1, hand.2.1⟩
          have hrc : repayContribution c.id t0 = 0 := repayContribution_zero_of_type _ _ hrep
          rw [hcc, hrc]
          rw [hinv c hcm]
          ring

theorem stateOk_step (s s2 : AppState) (hstep : Step s s2) (h : StateOk s) : StateOk s2 := by
  cases hstep with
  | sale v s3 hok => exact stateOk_sale s v s2 h hok
  | expense d a => exact stateOk_expense s d a h
  | add f q => exact stateOk_addStock s f q h
  | setAbsolute p d => exact stateOk_setAbsolute s p d h
  | prices p d => exact stateOk_updatePrices s p d h
  | repay cid a => exact stateOk_repay s cid a h
  | rename cid n => exact stateOk_rename s cid n h
  | delCustomer cid => exact stateOk_delCustomer s cid h
  | delTx i => exact stateOk_delTx s i h
  | editExpense i d a he => exact stateOk_editExpense s i d a h he

theorem stateOk_init (stock prices : FuelMap) (now : Nat) :
    StateOk (initState stock prices now) := by
  refine ⟨⟨?_, ?_, ?_, ?_⟩, ?_⟩ <;> simp [initState, BalanceInv]

/-- Claim C4: in every state reachable from a fresh application state through
the engine operations (sales, expenses, stock additions and absolute
adjustments, price updates, repayments, customer renames and deletions,
transaction deletions, and expense edits as offered by the UI), each existing
customer's balance equals the sum of the amounts of credit-sale entries in
the ledger carrying that customer's id minus the sum of the repayment
entries carrying it. -/
theorem claim4_credit_balance_conservation (stock prices : FuelMap) (now : Nat)
    (s : AppState) (hreach : Reachable (initState stock prices now) s) :
    ∀ c ∈ s.customers,
      c.balance = creditSaleTotal s.transactions c.id -
        repaymentTotal s.transactions c.id := by
  have hok : StateOk s := by
    unfold Reachable at hreach
    induction hreach with
    | refl => exact stateOk_init stock prices now
    | tail hsteps hstep ih => exact stateOk_step _ _ hstep ih
  exact hok.2

theorem claim4_witness :
    ({ id := 0, name := "Ali", balance := (5 : ℚ) * 10 } : Customer).balance =
      creditSaleTotal exC4State.transactions 0 - repaymentTotal exC4State.transactions 0 := by
  have hok : onSaleSubmit exInitC4 exSaleV = Except.ok exC4State :=
    onSaleSubmit_credit_new exInitC4 exSaleV "Ali"
      (by norm_num [exInitC4, initState, exSaleV, FuelMap.get]) rfl rfl
      (by decide) rfl
  have hreach : Reachable exInitC4 exC4State :=
    Relation.ReflTransGen.single (Step.sale exInitC4 exSaleV exC4State hok)
  have hmem : ({ id := 0, name := "Ali", balance := (5 : ℚ) * 10 } : Customer) ∈
      exC4State.customers := by
    simp [exC4State, addTransaction, saleStockUpdated, exInitC4, initState, exSaleV, FuelMap.get]
  exact claim4_credit_balance_conservation { petrol := 100, diesel := 100 }
    { petrol := 10, diesel := 10 } 7 exC4State hreach _ hmem

theorem find?_id_of_mem_nodup (cs : List Customer) (c : Customer)
    (hnd : (cs.map Customer.id).Nodup) (hm : c ∈ cs) :
    cs.find? (fun x => x.id == c.id) = some c := by
  induction cs with
  | nil => cases hm
  | cons y ys ih =>
    rcases List.mem_cons.mp hm with rfl | hm2
    · rw [List.find?_cons_of_pos]
      simp
    · have hy : y.id ≠ c.id := by
        intro hEq
        have hin : c.id ∈ ys.map Customer.id := List.mem_map_of_mem _ hm2
        rw [← hEq] at hin
        exact ((List.nodup_cons.mp (by simpa using hnd)).1 hin)
      rw [List.find?_cons_of_neg]
      · exact ih (by simpa using (List.nodup_cons.mp (by simpa using hnd)).2) hm2
      · simp [hy]

/-- Claim C6: for a credit sale with a nonempty customer name and sufficient
stock, if an existing customer matches the name case-insensitively then that
customer's balance grows by the sale amount, no customer record is created,
and the appended sale entry carries that customer's id; otherwise a new
customer with that name and balance equal to the sale amount is appended and
the sale entry carries the new id. -/
theorem claim6_credit_customer_matching (s : AppState) (v : SaleValues) (n : String)
    (s2 : AppState)
    (hq : ¬ s.fuelStock.get v.fuelType < v.quantity)
    (hcr : v.isCredit = true) (hname : v.customerName = some n) (hne : n ≠ "")
    (hnd : (s.customers.map Customer.id).Nodup)
    (hok : onSaleSubmit s v = Except.ok s2) :
    (∀ c, s.customers.find? (fun x => strLower x.name == strLower n) = some c →
      balanceOf s c.id = some c.balance ∧
      balanceOf s2 c.id = some (c.balance + v.quantity * s.fuelPrices.get v.fuelType) ∧
      s2.customers.length = s.customers.length ∧
      ∃ t, s2.transactions.head? = some t ∧ t.type = TxType.sale ∧
        t.customerId = some c.id ∧ t.amount = v.quantity * s.fuelPrices.get v.fuelType) ∧
    (s.customers.find? (fun x => strLower x.name == strLower n) = none →
      s2.customers = s.customers ++
        [{ id := s.nextId, name := n,
           balance := v.quantity * s.fuelPrices.get v.fuelType }] ∧
      ∃ t, s2.transactions.head? = some t ∧ t.type = TxType.sale ∧
        t.customerId = some s.nextId ∧
        t.amount = v.quantity * s.fuelPrices.get v.fuelType) := by
  constructor
  · intro c hfind
    have hmem : c ∈ s.customers := List.mem_of_find?_eq_some hfind
    have hchar := onSaleSubmit_credit_found s v n c hq hcr hname hne hfind
    rw [hok] at hchar
    injection hchar with hs2
    subst hs2
    have hgid : ∀ x : Customer,
        ((fun x => if x.id == c.id then
          { c with balance := c.balance + v.quantity * s.fuelPrices.get v.fuelType }
        else x) x).id = x.id := by
      intro x
      dsimp only
      by_cases hxe : x.id = c.id
      · rw [if_pos (by simp [hxe])]
        exact hxe.symm
      · rw [if_neg (by simp [hxe])]
    refine ⟨?_, ?_, ?_, ?_⟩
    · unfold balanceOf
      rw [find?_id_of_mem_nodup s.customers c hnd hmem]
      rfl
    · unfold balanceOf
      rw [addTransaction_customers]
      show ((s.customers.map (fun x => if x.id == c.id then
          { c with balance := c.balance + v.quantity * s.fuelPrices.get v.fuelType }
        else x)).find? (fun x => x.id == c.id)).map Customer.balance =
        some (c.balance + v.quantity * s.fuelPrices.get v.fuelType)
      rw [find?_id_map _ _ hgid, find?_id_of_mem_nodup s.customers c hnd hmem]
      simp
    · rw [addTransaction_customers]
      show (s.customers.map (fun x => if x.id == c.id then
          { c with balance := c.balance + v.quantity * s.fuelPrices.get v.fuelType }
        else x)).length = s.customers.length
      exact List.length_map _ _
    · refine ⟨draftTx
        { saleStockUpdated s v with customers := s.customers.map (fun x =>
            if x.id == c.id then
              { c with balance := c.balance + v.quantity * s.fuelPrices.get v.fuelType }
            else x) }
        (saleDraft v (v.quantity * s.fuelPrices.get v.fuelType) (some c.id)),
        ?_, rfl, rfl, rfl⟩
      rw [addTransaction_transactions_draftTx]
      rfl
  · intro hfind
    have hchar := onSaleSubmit_credit_new s v n hq hcr hname hne hfind
    rw [hok] at hchar
    injection hchar with hs2
    subst hs2
    refine ⟨?_, ?_⟩
    · rw [addTransaction_customers]
    · refine ⟨draftTx
        { saleStockUpdated s v with
            customers := s.customers ++
              [{ id := s.nextId, name := n,
                 balance := v.quantity * s.fuelPrices.get v.fuelType }],
            nextId := s.nextId + 1 }
        (saleDraft v (v.quantity * s.fuelPrices.get v.fuelType) (some s.nextId)),
        ?_, rfl, rfl, rfl⟩
      rw [addTransaction_transactions_draftTx]
      rfl

theorem claim6_witness :
    balanceOf exAliState 0 = some 100 ∧
    balanceOf exC6State 0 = some ((100 : ℚ) + 2 * (205/2)) ∧
    exC6State.customers.length = exAliState.customers.length := by
  have h := (claim6_credit_customer_matching exAliState exSaleV6 "ali" exC6State
      (by norm_num [exAliState, exSaleV6, FuelMap.get]) rfl rfl (by decide) (by decide)
      (onSaleSubmit_credit_found exAliState exSaleV6 "ali"
        { id := 0, name := "Ali", balance := 100 }
        (by norm_num [exAliState, exSaleV6, FuelMap.get]) rfl rfl (by decide) (by decide))).1
    { id := 0, name := "Ali", balance := 100 } (by decide)
  exact ⟨h.1, h.2.1, h.2.2.1⟩

end FuelTrack
